import Mathlib

/-!
Verification development for the kabanero-operator pipeline reconciliation
core: `ActivatePipelines` / `DeleteAsset` (pkg/controller/utils/pipelines.go)
and the archive fetch/decode path `GetManifests` / `decodeManifests`
(pkg/controller/utils/archive utilities).

The Go code is shallowly embedded: pure control flow is translated into
executable Lean functions; the external collaborators (Kubernetes API client,
HTTP/git transport, gzip+tar extraction, the YAML directive renderer and the
SHA-256 primitive from crypto/sha256) are modelled as explicit oracle
parameters, exactly at the call boundaries where the Go code invokes them.
Byte strings are `List Nat` (one Nat per byte); Go's `int64` counters are
`Int` (no arithmetic in this code approaches the 64-bit range).
-/

namespace Kabanero

/-! ## Data model (pkg/apis/kabanero/v1alpha2 types used by the core) -/

/-- GitReleaseInfo: hostname, organization, project, release tag, asset name. -/
structure GitReleaseInfo where
  hostname : String
  organization : String
  project : String
  release : String
  assetName : String
deriving DecidableEq, Repr

/-- The zero value of GitReleaseInfo (Go struct zero value). -/
def GitReleaseInfo.zero : GitReleaseInfo :=
  { hostname := "", organization := "", project := "", release := "", assetName := "" }

/-- Modelled from the spec: the apis package (not under src/) defines
`GitReleaseInfo.IsUsable`. The spec says a PipelineReference carries "exactly
one of `sourceURL` (HTTPS location) or `gitReleaseInfo` (hostname, org,
project, release tag, asset name)"; git-release information is usable when
all of its coordinate fields are populated. -/
def GitReleaseInfo.isUsable (g : GitReleaseInfo) : Bool :=
  g.hostname ≠ "" && g.organization ≠ "" && g.project ≠ "" && g.release ≠ "" && g.assetName ≠ ""

/-- GitReleaseSpec: the desired-spec variant, which additionally carries the
per-resource `SkipCertVerification` flag. -/
structure GitReleaseSpec where
  hostname : String
  organization : String
  project : String
  release : String
  assetName : String
  skipCertVerification : Bool
deriving DecidableEq, Repr

/-- Modelled from the spec: usability of spec-side git release coordinates,
with the same criterion as `GitReleaseInfo.isUsable` (the flag plays no role). -/
def GitReleaseSpec.isUsable (g : GitReleaseSpec) : Bool :=
  g.hostname ≠ "" && g.organization ≠ "" && g.project ≠ "" && g.release ≠ "" && g.assetName ≠ ""

/-- `gitReleaseSpecToGitReleaseInfo` (pipelines.go): drops the cert flag. -/
def gitReleaseSpecToGitReleaseInfo (g : GitReleaseSpec) : GitReleaseInfo :=
  { hostname := g.hostname, organization := g.organization, project := g.project,
    release := g.release, assetName := g.assetName }

/-- An owner reference; only the UID is inspected by the reconciliation core. -/
structure OwnerReference where
  uid : String
deriving DecidableEq, Repr

/-- A loosely-typed cluster object (`unstructured.Unstructured`), restricted to
the fields the core reads or writes. -/
structure KObject where
  name : String
  nspace : String
  group : String
  version : String
  kind : String
  ownerRefs : List OwnerReference
deriving DecidableEq, Repr

/-- RepositoryAssetStatus: the persisted per-asset status record. -/
structure RepositoryAssetStatus where
  name : String
  nspace : String
  group : String
  version : String
  kind : String
  digest : String
  status : String
  statusMessage : String
deriving DecidableEq, Repr

/-- Status-side PipelineStatus record. -/
structure PipelineStatusRec where
  name : String
  url : String
  gitRelease : GitReleaseInfo
  digest : String
  activeAssets : List RepositoryAssetStatus
deriving DecidableEq, Repr

/-- Spec-side HTTPS location. -/
structure HttpsSpec where
  url : String
  skipCertVerification : Bool
deriving DecidableEq, Repr

/-- Spec-side pipeline declaration (`Sha256`, `GitRelease`, `Https`). -/
structure PipelineSpecRec where
  sha256 : String
  gitRelease : GitReleaseSpec
  https : HttpsSpec
deriving DecidableEq, Repr

/-- One status version entry: its version string and pipeline statuses. -/
structure VersionStatus where
  version : String
  pipelines : List PipelineStatusRec
deriving DecidableEq, Repr

/-- One desired-spec version entry. -/
structure VersionSpec where
  version : String
  pipelines : List PipelineSpecRec
deriving DecidableEq, Repr

/-- ComponentStatus: all recorded versions. -/
structure ComponentStatus where
  versions : List VersionStatus
deriving DecidableEq, Repr

/-- ComponentSpec: all desired versions. -/
structure ComponentSpec where
  versions : List VersionSpec
deriving DecidableEq, Repr

/-- A decoded, renderable asset extracted from an archive (`StackAsset`). -/
structure StackAsset where
  name : String
  group : String
  version : String
  kind : String
  sha256 : String
  yaml : KObject
deriving DecidableEq, Repr

/-! ## The pipeline use-count map (pipelines.go lines 29-54) -/

/-- `PipelineUseMapKey`: url, git release info and digest. -/
structure PipelineUseMapKey where
  url : String
  gitRelease : GitReleaseInfo
  digest : String
deriving DecidableEq, Repr

/-- `PipelineUseMapValue`: the embedded PipelineStatus, the use count, the
per-pass manifest cache and the sticky manifest error. -/
structure PipelineUseMapValue where
  pipelineStatus : PipelineStatusRec
  useCount : Int
  manifests : List StackAsset
  manifestError : Option String
deriving DecidableEq, Repr

/-- `pipelineVersion`: a use-map key paired with a stack version string. -/
structure PipelineVersion where
  key : PipelineUseMapKey
  version : String
deriving DecidableEq, Repr

/-- The use map. Go's `map[PipelineUseMapKey]*PipelineUseMapValue` is modelled
as an association list in insertion order; all observations made of it below
(lookups, counts) are independent of entry order, so fixing the order is sound
even though Go map iteration order is unspecified. -/
abbrev UseMap := List (PipelineUseMapKey × PipelineUseMapValue)

/-- First-match association lookup (Go map indexing). -/
def lookupKey : UseMap → PipelineUseMapKey → Option PipelineUseMapValue
  | [], _ => none
  | e :: rest, k => if e.1 = k then some e.2 else lookupKey rest k

/-- Replace the value stored under a key (Go's in-place mutation through the
stored pointer). -/
def updateKey : UseMap → PipelineUseMapKey → PipelineUseMapValue → UseMap
  | [], _, _ => []
  | e :: rest, k, v => if e.1 = k then (k, v) :: rest else e :: updateKey rest k v

/-- Key-presence test. -/
def containsKey (m : UseMap) (k : PipelineUseMapKey) : Bool :=
  (lookupKey m k).isSome

/-- The use count recorded under a key (0 when the key is absent). -/
def countAt (m : UseMap) (k : PipelineUseMapKey) : Int :=
  match lookupKey m k with
  | some v => v.useCount
  | none => 0

/-! ## Phase 1-3: seeding and version-change bookkeeping (lines 56-116) -/

/-- The use-map key computed for a status-side pipeline entry (lines 63-68):
start from the digest and fill exactly one of the git release or the URL. -/
def pipelineStatusKey (p : PipelineStatusRec) : PipelineUseMapKey :=
  if p.gitRelease.isUsable then
    { url := "", gitRelease := p.gitRelease, digest := p.digest }
  else
    { url := p.url, gitRelease := GitReleaseInfo.zero, digest := p.digest }

/-- The use-map key computed for a spec-side pipeline entry (lines 101-108). -/
def pipelineSpecKey (p : PipelineSpecRec) : PipelineUseMapKey :=
  if p.gitRelease.isUsable then
    { url := "", gitRelease := gitReleaseSpecToGitReleaseInfo p.gitRelease, digest := p.sha256 }
  else
    { url := p.https.url, gitRelease := GitReleaseInfo.zero, digest := p.sha256 }

/-- All pipeline statuses of all status versions, in iteration order. -/
def statusPipelineList (st : ComponentStatus) : List PipelineStatusRec :=
  st.versions.flatMap (fun v => v.pipelines)

/-- One seeding step (lines 69-75): create the entry on first sight (deep
copying the pipeline status), then increment its use count. A freshly created
entry therefore ends the step with count 1 (0 at creation, then incremented). -/
def seedStep (m : UseMap) (p : PipelineStatusRec) : UseMap :=
  let k := pipelineStatusKey p
  match lookupKey m k with
  | none =>
      m ++ [(k, { pipelineStatus := p, useCount := 1, manifests := [], manifestError := none })]
  | some v => updateKey m k { v with useCount := v.useCount + 1 }

/-- Phase 1 (lines 60-77): seed one entry per distinct key with the number of
status entries referencing it. -/
def seedMap (st : ComponentStatus) : UseMap :=
  (statusPipelineList st).foldl seedStep []

/-- The (key, version) pairs implied by the recorded status, in order and with
multiplicity. -/
def statusPairList (st : ComponentStatus) : List PipelineVersion :=
  st.versions.flatMap (fun v => v.pipelines.map (fun p => ⟨pipelineStatusKey p, v.version⟩))

/-- The (key, version) pairs implied by the desired spec, in order and with
multiplicity. -/
def specPairList (sp : ComponentSpec) : List PipelineVersion :=
  sp.versions.flatMap (fun v => v.pipelines.map (fun p => ⟨pipelineSpecKey p, v.version⟩))

/-- Set insertion: Go's `set[x] = true` on a `map[pipelineVersion]bool`. -/
def pvInsert (s : List PipelineVersion) (pv : PipelineVersion) : List PipelineVersion :=
  if pv ∈ s then s else s ++ [pv]

/-- Phase 2 (lines 81-94): the set of pairs to decrement. -/
def decSet0 (st : ComponentStatus) : List PipelineVersion :=
  (statusPairList st).foldl pvInsert []

/-- One step of the spec loop (lines 109-114): a pair already marked for
decrement is cancelled; otherwise it is marked for increment.
The cert-verification side map built in the same loop (lines 98-107) is not
consulted by anything modelled here - it is only forwarded to the fetch
collaborator, which is an oracle parameter below - so it is omitted. -/
def specLoopStep (s : List PipelineVersion × List PipelineVersion) (pv : PipelineVersion) :
    List PipelineVersion × List PipelineVersion :=
  if pv ∈ s.1 then (s.1.erase pv, s.2) else (s.1, pvInsert s.2 pv)

/-- Phase 3 (lines 99-116): fold the spec pairs over the decrement set,
producing the final decrement and increment sets. -/
def specLoop (sp : ComponentSpec) (dec0 : List PipelineVersion) :
    List PipelineVersion × List PipelineVersion :=
  (specPairList sp).foldl specLoopStep (dec0, [])

/-! ## Phase 4-5: use-count adjustment (lines 118-137) -/

/-- One step of the decrement loop (lines 119-126): a missing key is the
structural error "Pipeline version not found in use map". -/
def decStep (acc : Except String UseMap) (pv : PipelineVersion) : Except String UseMap :=
  acc.bind (fun mm =>
    match lookupKey mm pv.key with
    | none => .error "Pipeline version not found in use map"
    | some v => .ok (updateKey mm pv.key { v with useCount := v.useCount - 1 }))

/-- Phase 4 (lines 119-126): decrement each pair's key. -/
def decPhase (m : UseMap) (dec : List PipelineVersion) : Except String UseMap :=
  dec.foldl decStep (.ok m)

/-- A fresh use-map value created during the increment loop (line 132): only
the url/git-release/digest of the key are filled in. It is created with count
0 and immediately incremented, so it is materialised here with count 1. -/
def freshValue (pv : PipelineVersion) : PipelineUseMapValue :=
  { pipelineStatus :=
      { name := "", url := pv.key.url, gitRelease := pv.key.gitRelease,
        digest := pv.key.digest, activeAssets := [] },
    useCount := 1, manifests := [], manifestError := none }

/-- One step of the increment loop (lines 128-137): create a missing entry,
then increment. -/
def incStep (mm : UseMap) (pv : PipelineVersion) : UseMap :=
  match lookupKey mm pv.key with
  | none => mm ++ [(pv.key, freshValue pv)]
  | some v => updateKey mm pv.key { v with useCount := v.useCount + 1 }

/-- Phase 5 (lines 128-137): increment each pair's key, creating missing
entries. -/
def incPhase (m : UseMap) (inc : List PipelineVersion) : UseMap :=
  inc.foldl incStep m

/-- The complete use-count bookkeeping of `ActivatePipelines` (lines 56-137):
seed from status, reconcile version changes against the spec, then apply the
decrements and increments. -/
def countPhase (st : ComponentStatus) (sp : ComponentSpec) : Except String UseMap :=
  let m0 := seedMap st
  let s := specLoop sp (decSet0 st)
  (decPhase m0 s.1).map (fun m1 => incPhase m1 s.2)

/-! ## Cluster interaction model (pipelines.go lines 139-393)

The Kubernetes client is an external collaborator; each call site is given an
oracle describing the outcome the cluster would produce. Calls actually issued
are recorded in a trace. -/

/-- The outcome of a `c.Get` call, distinguishing the `errors.IsNotFound`
case the code tests for. -/
inductive GetOutcome where
  | found (u : KObject)
  | notFound
  | apiError (msg : String)
deriving DecidableEq, Repr

/-- A cluster API call issued by the reconciler. -/
inductive ClusterCall where
  | getCall (nspace name : String)
  | updateCall (u : KObject)
  | applyCall (u : KObject)
  | deleteCall (u : KObject)
deriving DecidableEq, Repr

/-- `getNamespaceForObject` (lines 379-393): trigger bindings/templates and
event listeners keep a pre-set namespace of their own, everything else gets
the default. -/
def getNamespaceForObject (u : KObject) (defaultNamespace : String) : String :=
  if (u.kind = "TriggerBinding" ∨ u.kind = "TriggerTemplate" ∨ u.kind = "EventListener")
      ∧ u.nspace ≠ "" then
    u.nspace
  else
    defaultNamespace

/-- Namespace defaulting applied to old assets with no namespace recorded
(lines 146-149 and 201-205). -/
def nsDefault (tns : String) (a : RepositoryAssetStatus) : RepositoryAssetStatus :=
  if a.nspace = "" then { a with nspace := tns } else a

/-- True when one of the object's owner references carries the given UID. -/
def hasOwnerUid (u : KObject) (uid : String) : Bool :=
  u.ownerRefs.any (fun r => decide (r.uid = uid))

/-- The oracles consulted while ensuring one asset. `live` is the `c.Get`
outcome keyed by (namespace, name); `fetch` is the `GetManifests` call for the
owning pipeline; `transform` is the manifestival owner/namespace-injection
transform of a matching manifest; `applyRes` is the result of `m.Apply()`
(`none` is success). -/
structure AssetOracles where
  live : String → String → GetOutcome
  fetch : Except String (List StackAsset)
  transform : StackAsset → Except String KObject
  applyRes : KObject → Option String

/-- Result of processing one tracked asset. -/
structure EnsureAssetResult where
  asset : RepositoryAssetStatus
  manifests : List StackAsset
  fetches : Nat
  calls : List ClusterCall
deriving Repr

/-- The rejection message of the group allow-list (line 256). -/
def rejectionMessage : String :=
  "Manifest rejected: contains a Group not equal to tekton.dev or triggers.tekton.dev"

/-- The message recorded when manifests cannot be re-fetched (line 239). -/
def manifestsGoneMessage : String :=
  "Manifests are no longer available at specified URL"

/-- The per-asset manifest application loop (lines 247-290): every decoded
manifest whose name matches the asset is either rejected by the group
allow-list, or transformed and applied, updating the tracked status each time.
Note the faithful translation of lines 273-274: on a transform error the
source assigns `Status = AssetStatusFailed` and then immediately overwrites
`Status = err.Error()`, leaving `StatusMessage` untouched; the net effect kept
here is `status := e`. -/
def applyStep (assetName : String) (o : AssetOracles)
    (s : RepositoryAssetStatus × List ClusterCall) (manifest : StackAsset) :
    RepositoryAssetStatus × List ClusterCall :=
  if assetName = manifest.name then
    if manifest.yaml.group ≠ "tekton.dev" ∧ manifest.yaml.group ≠ "triggers.tekton.dev" then
      ({ s.1 with status := "failed", statusMessage := rejectionMessage }, s.2)
    else
      match o.transform manifest with
      | .error e => ({ s.1 with status := e }, s.2)
      | .ok u =>
          match o.applyRes u with
          | some e =>
              ({ s.1 with status := "failed", statusMessage := e }, s.2 ++ [.applyCall u])
          | none =>
              ({ s.1 with status := "active", statusMessage := "" }, s.2 ++ [.applyCall u])
  else s

/-- The matching-manifest walk of one not-found asset (lines 247-290). -/
def applyMatchingManifests (assetName : String) (st0 : RepositoryAssetStatus)
    (manifests : List StackAsset) (o : AssetOracles) :
    RepositoryAssetStatus × List ClusterCall :=
  manifests.foldl (applyStep assetName o) (st0, [])

/-- The lazy manifest reload of the not-found branch (lines 226-244): when the
cache is empty, call `GetManifests` once; report (manifests, fetch-failed?,
number of fetch calls). -/
def loadManifests (manifests : List StackAsset) (o : AssetOracles) :
    List StackAsset × Bool × Nat :=
  if manifests.isEmpty then
    match o.fetch with
    | .error _ => (manifests, true, 1)
    | .ok ms => (ms, false, 1)
  else (manifests, false, 0)

/-- Processing of one tracked asset (lines 200-318): default the namespace,
read the live object, then either record the check failure, run the not-found
creation path, or accrue ownership on the found object. -/
def ensureAsset (tns : String) (owner : OwnerReference) (asset0 : RepositoryAssetStatus)
    (manifests : List StackAsset) (o : AssetOracles) : EnsureAssetResult :=
  let asset := nsDefault tns asset0
  match o.live asset.nspace asset.name with
  | .apiError e =>
      { asset := { asset with status := "unknown", statusMessage := "Unable to check asset: " ++ e },
        manifests := manifests, fetches := 0, calls := [.getCall asset.nspace asset.name] }
  | .notFound =>
      let lm := loadManifests manifests o
      let asset1 :=
        if lm.2.1 then
          { asset with status := "failed", statusMessage := manifestsGoneMessage }
        else asset
      let am := applyMatchingManifests asset.name asset1 lm.1 o
      { asset := am.1, manifests := lm.1, fetches := lm.2.2,
        calls := .getCall asset.nspace asset.name :: am.2 }
  | .found u =>
      let upd :=
        if hasOwnerUid u owner.uid then ([] : List ClusterCall)
        else [.updateCall { u with ownerRefs := u.ownerRefs ++ [owner] }]
      { asset := { asset with status := "active", statusMessage := "" },
        manifests := manifests, fetches := 0,
        calls := .getCall asset.nspace asset.name :: upd }

/-- The initial status record built for a freshly decoded asset
(lines 184-196). -/
def buildAssetStatus (tns : String) (a : StackAsset) : RepositoryAssetStatus :=
  { name := a.name, nspace := getNamespaceForObject a.yaml tns, group := a.group,
    version := a.version, kind := a.kind, digest := a.sha256,
    status := "unknown", statusMessage := "Asset has not been applied yet." }

/-- Result of ensure-present processing for one pipeline. -/
structure EnsurePipelineResult where
  value : PipelineUseMapValue
  fetches : Nat
  calls : List ClusterCall
deriving Repr

/-- The asset loop of one pipeline (lines 200-318), threading the manifest
cache through the per-asset steps. -/
def ensureAssetsLoop (tns : String) (owner : OwnerReference) (o : AssetOracles)
    (assets : List RepositoryAssetStatus) (manifests0 : List StackAsset) :
    List RepositoryAssetStatus × List StackAsset × Nat × List ClusterCall :=
  assets.foldl
    (fun s a =>
      let r := ensureAsset tns owner a s.2.1 o
      (s.1 ++ [r.asset], r.manifests, s.2.2.1 + r.fetches, s.2.2.2 ++ r.calls))
    ([], manifests0, 0, [])

/-- Ensure-present processing of one use-map entry with positive use count
(lines 156-320). When the entry has no recorded assets, the manifests are
fetched and decoded up front (lines 162-197); a failure there is recorded in
`manifestError` and the entry is skipped (`continue`). The digest-prefix
rendering-context bookkeeping (lines 166-170, 227-232) only feeds the fetch
collaborator and is absorbed into the fetch oracle. -/
def ensurePipeline (tns : String) (owner : OwnerReference) (v : PipelineUseMapValue)
    (o : AssetOracles) : EnsurePipelineResult :=
  if v.pipelineStatus.activeAssets.isEmpty then
    match o.fetch with
    | .error e => { value := { v with manifestError := some e }, fetches := 1, calls := [] }
    | .ok ms =>
        let assets0 := ms.map (buildAssetStatus tns)
        let r := ensureAssetsLoop tns owner o assets0 ms
        { value :=
            { v with
              pipelineStatus := { v.pipelineStatus with activeAssets := r.1 },
              manifests := r.2.1 },
          fetches := 1 + r.2.2.1, calls := r.2.2.2 }
  else
    let r := ensureAssetsLoop tns owner o v.pipelineStatus.activeAssets v.manifests
    { value :=
        { v with
          pipelineStatus := { v.pipelineStatus with activeAssets := r.1 },
          manifests := r.2.1 },
      fetches := r.2.2.1, calls := r.2.2.2 }

/-- `DeleteAsset` (lines 326-376): skip failed/unknown assets; otherwise read
the live object, treat not-found as success, strip this owner's references and
either delete the object (last owner) or update it with the reduced list.
`delErr`/`updErr` are the outcomes of the delete/update calls. -/
def deleteAsset (asset : RepositoryAssetStatus) (owner : OwnerReference)
    (live : GetOutcome) (delErr updErr : Option String) : Except String (List ClusterCall) :=
  if asset.status = "unknown" ∨ asset.status = "failed" then
    .ok []
  else
    match live with
    | .apiError e => .error e
    | .notFound => .ok [.getCall asset.nspace asset.name]
    | .found u =>
        let newOwnerRefs := u.ownerRefs.filter (fun r => decide (r.uid ≠ owner.uid))
        if newOwnerRefs.isEmpty then
          match delErr with
          | some e => .error e
          | none => .ok [.getCall asset.nspace asset.name, .deleteCall u]
        else
          match updErr with
          | some e => .error e
          | none =>
              .ok [.getCall asset.nspace asset.name,
                   .updateCall { u with ownerRefs := newOwnerRefs }]

/-- The deletion schedule of the first map walk (lines 141-154): every
previously active asset of every entry whose use count dropped to zero or
below, with the namespace defaulted. -/
def deleteScheduleStep (tns : String) (acc : List RepositoryAssetStatus)
    (e : PipelineUseMapKey × PipelineUseMapValue) : List RepositoryAssetStatus :=
  if e.2.useCount ≤ 0 then acc ++ e.2.pipelineStatus.activeAssets.map (nsDefault tns)
  else acc

/-- The deletion schedule, assembled. -/
def deleteSchedule (tns : String) (m : UseMap) : List RepositoryAssetStatus :=
  m.foldl (deleteScheduleStep tns) []

/-- The keys processed by the ensure-present walk (entries with positive use
count, lines 156-157). -/
def ensureKeys (m : UseMap) : List PipelineUseMapKey :=
  (m.filter (fun e => decide (0 < e.2.useCount))).map (fun e => e.1)

/-- The ensure-present walk (lines 156-320): every entry with positive use
count is processed with its own oracles; the others are untouched. -/
def ensurePhase (tns : String) (owner : OwnerReference) (m : UseMap)
    (o : PipelineUseMapKey → AssetOracles) : UseMap :=
  m.map (fun e =>
    if 0 < e.2.useCount then (e.1, (ensurePipeline tns owner e.2 (o e.1)).value) else e)

/-- The full `ActivatePipelines` model: use-count bookkeeping, then the delete
schedule and the ensure-present walk over the resulting map. The only error
exit is the structural error of the decrement loop. -/
def activatePipelines (sp : ComponentSpec) (st : ComponentStatus) (tns : String)
    (owner : OwnerReference) (o : PipelineUseMapKey → AssetOracles) :
    Except String (UseMap × List RepositoryAssetStatus) :=
  (countPhase st sp).map (fun m => (ensurePhase tns owner m o, deleteSchedule tns m))

/-! ## Archive fetch and decode model (pkg/controller/utils archive utilities)

`decodeManifests` and `GetManifests` are embedded over byte lists. The gzip
and tar layers (`archive/tar`, `compress/gzip`), the YAML unmarshaller, the
directive renderer and `crypto/sha256` are external libraries and appear as
oracle parameters; `encoding/hex` and the `copy` into a `[32]byte` are
reimplemented concretely. -/

/-- One entry of the `manifest.yaml` index (`StackContents`). -/
structure StackContents where
  file : String
  sha256 : String
deriving DecidableEq, Repr

/-- The parsed `manifest.yaml` index (`StackManifest`). -/
structure StackManifest where
  contents : List StackContents
deriving DecidableEq, Repr

/-- One tar entry as produced by the tar reader: its header name and its fully
read bytes. -/
structure TarEntry where
  name : String
  bytes : List Nat
deriving DecidableEq, Repr

/-- `strings.TrimPrefix(name, "./")`: drop one leading `./` if present. -/
def dropDotSlash (s : String) : String :=
  match s.data with
  | '.' :: '/' :: rest => String.mk rest
  | _ => s

/-- `strings.HasSuffix`, computed over the character lists. -/
def endsWithS (s suffixStr : String) : Bool :=
  suffixStr.data.isSuffixOf s.data

/-- The value of one hex digit (`encoding/hex`). -/
def hexDigitVal : Char → Option Nat
  | c =>
    if '0' ≤ c ∧ c ≤ '9' then some (c.toNat - '0'.toNat)
    else if 'a' ≤ c ∧ c ≤ 'f' then some (c.toNat - 'a'.toNat + 10)
    else if 'A' ≤ c ∧ c ≤ 'F' then some (c.toNat - 'A'.toNat + 10)
    else none

/-- `hex.DecodeString` over a character list: bytes from digit pairs; an odd
length or a non-hex digit is an error (`none`). -/
def hexDecodeList : List Char → Option (List Nat)
  | [] => some []
  | [_] => none
  | c1 :: c2 :: rest =>
    match hexDigitVal c1, hexDigitVal c2, hexDecodeList rest with
    | some h, some l, some tail => some ((h * 16 + l) :: tail)
    | _, _, _ => none

/-- `hex.DecodeString`. -/
def hexDecode (s : String) : Option (List Nat) :=
  hexDecodeList s.data

/-- One byte as two lowercase hex characters. -/
def hexByte (n : Nat) : List Char :=
  let digit := fun d => if d < 10 then Char.ofNat ('0'.toNat + d) else Char.ofNat ('a'.toNat + (d - 10))
  [digit (n / 16 % 16), digit (n % 16)]

/-- `hex.EncodeToString`. -/
def hexEncode (bs : List Nat) : String :=
  String.mk (bs.flatMap hexByte)

/-- `copy(c_sum[:], decoded)` into a zeroed `[32]byte`: the first
`min 32 (len decoded)` bytes come from `decoded`, the rest stay zero. -/
def padTo32 (l : List Nat) : List Nat :=
  (l ++ List.replicate 32 0).take 32

/-- Pass 1 of `decodeManifests` (lines 288-322): scan all tar entries for
`manifest.yaml` (tolerating a leading `./`), unmarshalling each occurrence
(the last parse observed wins); fail if the whole archive holds none.
`parseIndex` is the `yml.Unmarshal` collaborator. -/
def passOneStep (parseIndex : List Nat → Except String StackManifest)
    (acc : Except String (Bool × StackManifest)) (e : TarEntry) :
    Except String (Bool × StackManifest) :=
  acc.bind (fun s =>
    if dropDotSlash e.name = "manifest.yaml" then
      (parseIndex e.bytes).map (fun sm => (true, sm))
    else .ok s)

/-- Pass 1 (lines 288-322), assembled. -/
def passOne (parseIndex : List Nat → Except String StackManifest)
    (entries : List TarEntry) : Except String StackManifest :=
  (entries.foldl (passOneStep parseIndex) (.ok (false, { contents := [] }))).bind (fun s =>
    if s.1 then .ok s.2
    else .error "Error reading archive, unable to read manifest.yaml")

/-- The per-file checksum cross-check of pass 2 (lines 354-384): walk the
whole index; every entry whose `file` matches the (`./`-trimmed) name updates
the running asset checksum string, and a non-empty recorded checksum must
hex-decode and equal the file's hash or the decode fails; a file matched only
by empty-checksum entries is accepted. A file matched by no index entry at
all fails the decode. Returns the asset checksum string handed to the
renderer. -/
def checkStep (sha : List Nat → List Nat) (name : String) (b : List Nat)
    (acc : Except String (Bool × String)) (content : StackContents) :
    Except String (Bool × String) :=
  acc.bind (fun s =>
    if content.file = dropDotSlash name then
      if content.sha256 ≠ "" then
        match hexDecode content.sha256 with
        | none => .error ("encoding/hex: invalid checksum string for " ++ name)
        | some decoded =>
            if sha b ≠ padTo32 decoded then
              .error ("Archive file: " ++ name ++
                "  manifest.yaml checksum:  did not match file checksum")
            else .ok (true, content.sha256)
      else .ok (true, content.sha256)
    else .ok s)

/-- The checksum cross-check (lines 354-384), assembled. -/
def checkEntry (sha : List Nat → List Nat) (sm : StackManifest) (name : String)
    (b : List Nat) : Except String String :=
  (sm.contents.foldl (checkStep sha name b) (.ok (false, ""))).bind (fun s =>
    if s.1 ≠ true then
      .error ("File " ++ name ++ " was found in the archive, but not in the manifest.yaml")
    else .ok s.2)

/-- Pass 2 of `decodeManifests` (lines 332-393): re-walk the entries; skip
`manifest.yaml`, and for every other entry ending in `.yaml` cross-check its
checksum and render/decode it into stack assets, accumulating them in order.
`render` is the directive-processor + YAML-decode collaborator
(`processManifest`), taking the file bytes, the file name and the asset
checksum string; its `io.EOF`-is-success convention is folded into it. -/
def passTwoStep (sha : List Nat → List Nat)
    (render : List Nat → String → String → Except String (List StackAsset))
    (sm : StackManifest) (acc : Except String (List StackAsset)) (e : TarEntry) :
    Except String (List StackAsset) :=
  acc.bind (fun manifests =>
    if dropDotSlash e.name = "manifest.yaml" then .ok manifests
    else if endsWithS e.name ".yaml" then
      (checkEntry sha sm e.name e.bytes).bind (fun asum =>
        (render e.bytes e.name asum).map (fun ms => manifests ++ ms))
    else .ok manifests)

/-- Pass 2 (lines 332-393), assembled. -/
def passTwo (sha : List Nat → List Nat)
    (render : List Nat → String → String → Except String (List StackAsset))
    (sm : StackManifest) (entries : List TarEntry) : Except String (List StackAsset) :=
  entries.foldl (passTwoStep sha render sm) (.ok [])

/-- `decodeManifests` (lines 276-395): unpack the archive bytes (`untar`
models gzip + tar extraction), find and parse `manifest.yaml`, then validate
and render every YAML entry. -/
def decodeManifests (untar : List Nat → Except String (List TarEntry))
    (parseIndex : List Nat → Except String StackManifest)
    (sha : List Nat → List Nat)
    (render : List Nat → String → String → Except String (List StackAsset))
    (archive : List Nat) : Except String (List StackAsset) :=
  (untar archive).bind (fun entries =>
    (passOne parseIndex entries).bind (fun sm =>
      passTwo sha render sm entries))

/-- The transport oracles of `DownloadToByte`: the HTTP cache fetch and the
git-release fetch. -/
structure FetchOracles where
  http : String → Except String (List Nat)
  git : GitReleaseInfo → Except String (List Nat)

/-- `DownloadToByte` (lines 184-207): git release when usable, else HTTP when
a URL is present, else the input error. -/
def downloadToByte (o : FetchOracles) (url : String) (gitRelease : GitReleaseInfo) :
    Except String (List Nat) :=
  if gitRelease.isUsable then o.git gitRelease
  else if url ≠ "" then o.http url
  else .error "No information was provided to retrieve the stack's index file. Specify a stack repository that includes a HTTP URL location or GitHub release information."

/-- The pipeline payload classification (`fileType`). The Go code uses the
string constants ".tar.gz" and ".yaml" with "" for unrecognized. -/
inductive PayloadType where
  | tarGzType
  | yamlType
  | unrecognized
deriving DecidableEq, Repr

/-- `getPipelineFileType` (lines 422-439): parse the URL (an unparsable URL is
an error even when git-release info is present), take its path - or the
git-release asset name when usable - and classify purely by suffix.
`urlPath` models `net/url.Parse(...).Path`. -/
def fileNameOf (ps : PipelineStatusRec) (pathName : String) : String :=
  if ps.gitRelease.isUsable then ps.gitRelease.assetName else pathName

/-- The suffix classification applied to the effective file name. -/
def classifySuffix (fileName : String) : PayloadType :=
  if endsWithS fileName ".tar.gz" || endsWithS fileName ".tgz" then .tarGzType
  else if endsWithS fileName ".yaml" || endsWithS fileName ".yml" then .yamlType
  else .unrecognized

/-- `getPipelineFileType`, assembled. -/
def getPipelineFileType (urlPath : String → Except String String)
    (ps : PipelineStatusRec) : Except String PayloadType :=
  (urlPath ps.url).map (fun pathName => classifySuffix (fileNameOf ps pathName))

/-- `GetManifests` (lines 441-480): download the payload, hash it, hex-decode
the declared digest into a zero-padded 32-byte array, classify the payload by
suffix, then: archives require the digest to match and are decoded; single
YAML manifests log a mismatch and are rendered anyway (the asset checksum
handed to the renderer is the hex of the computed hash); anything else is an
error. -/
def getManifests (fo : FetchOracles)
    (untar : List Nat → Except String (List TarEntry))
    (parseIndex : List Nat → Except String StackManifest)
    (sha : List Nat → List Nat)
    (render : List Nat → String → String → Except String (List StackAsset))
    (urlPath : String → Except String String)
    (ps : PipelineStatusRec) : Except String (List StackAsset) :=
  (downloadToByte fo ps.url ps.gitRelease).bind (fun b =>
    let bSum := sha b
    match hexDecode ps.digest with
    | none => .error ("encoding/hex: invalid digest string for " ++ ps.name)
    | some decoded =>
        let cSum := padTo32 decoded
        (getPipelineFileType urlPath ps).bind (fun ft =>
          match ft with
          | .tarGzType =>
              if bSum ≠ cSum then
                .error ("Index checksum not match download checksum for Pipeline Name " ++ ps.name)
              else decodeManifests untar parseIndex sha render b
          | .yamlType => render b ps.name (hexEncode bSum)
          | .unrecognized =>
              .error ("Can not decode file type of file for Pipeline " ++ ps.name ++
                ". Must be .tar.gz or .yaml.")))

/-! ## Helper lemmas on the cluster model -/

/-- The owner-accrual result of the found path (lines 292-317): the object the
cluster holds after the reconciler has seen it. -/
def afterOwner (u : KObject) (owner : OwnerReference) : KObject :=
  if hasOwnerUid u owner.uid then u else { u with ownerRefs := u.ownerRefs ++ [owner] }

lemma nsDefault_name (tns : String) (a : RepositoryAssetStatus) :
    (nsDefault tns a).name = a.name := by
  unfold nsDefault; split <;> rfl

lemma hasOwnerUid_afterOwner (u : KObject) (owner : OwnerReference) :
    hasOwnerUid (afterOwner u owner) owner.uid = true := by
  unfold afterOwner
  split
  · assumption
  · simp [hasOwnerUid]

lemma hasOwnerUid_afterOwner_mono (u : KObject) (owner : OwnerReference) (x : String)
    (h : hasOwnerUid u x = true) : hasOwnerUid (afterOwner u owner) x = true := by
  unfold afterOwner
  split
  · exact h
  · unfold hasOwnerUid at h ⊢
    simp only [List.any_append, h, Bool.true_or]

/-! ## Claim theorems: DeleteAsset and the found path -/

/-- Claim C5: `DeleteAsset` is a no-op returning success, with no cluster
read, update or delete, when the asset's recorded status is failed or
unknown; otherwise it reads the live object, treats not-found as success,
and on a live object removes exactly the owner references carrying the
reconciling stack's owner UID, deleting the object outright only when the
reduced owner list is empty and otherwise updating the object with the
reduced list. -/
theorem deleteAsset_behavior (asset : RepositoryAssetStatus) (owner : OwnerReference)
    (live : GetOutcome) (delErr updErr : Option String) :
    ((asset.status = "failed" ∨ asset.status = "unknown") →
        deleteAsset asset owner live delErr updErr = .ok []) ∧
    (asset.status ≠ "failed" → asset.status ≠ "unknown" →
      ((live = .notFound →
          deleteAsset asset owner live delErr updErr =
            .ok [.getCall asset.nspace asset.name]) ∧
       (∀ u, live = .found u → delErr = none → updErr = none →
          ((∀ r, r ∈ u.ownerRefs.filter (fun r => decide (r.uid ≠ owner.uid)) ↔
              (r ∈ u.ownerRefs ∧ r.uid ≠ owner.uid)) ∧
           (u.ownerRefs.filter (fun r => decide (r.uid ≠ owner.uid)) = [] →
              deleteAsset asset owner live delErr updErr =
                .ok [.getCall asset.nspace asset.name, .deleteCall u]) ∧
           (u.ownerRefs.filter (fun r => decide (r.uid ≠ owner.uid)) ≠ [] →
              deleteAsset asset owner live delErr updErr =
                .ok [.getCall asset.nspace asset.name,
                     .updateCall { u with
                       ownerRefs := u.ownerRefs.filter (fun r => decide (r.uid ≠ owner.uid)) }]))))) := by
  constructor
  · intro h
    unfold deleteAsset
    rcases h with h | h <;> simp [h]
  · intro hf hu
    have hguard : ¬ (asset.status = "unknown" ∨ asset.status = "failed") := by
      rintro (h | h)
      · exact hu h
      · exact hf h
    constructor
    · intro hl
      subst hl
      unfold deleteAsset
      simp [hguard]
    · intro u hl hd hup
      subst hl
      subst hd
      subst hup
      refine ⟨?_, ?_, ?_⟩
      · intro r
        simp [List.mem_filter]
      · intro hnil
        unfold deleteAsset
        rw [if_neg hguard]
        simp only [hnil]
        rfl
      · intro hne
        unfold deleteAsset
        rw [if_neg hguard]
        have hfe : (List.filter (fun r => decide (r.uid ≠ owner.uid)) u.ownerRefs).isEmpty = false := by
          cases h : (List.filter (fun r => decide (r.uid ≠ owner.uid)) u.ownerRefs).isEmpty
          · rfl
          · exact absurd (List.isEmpty_iff.mp h) hne
        simp only [hfe]
        rfl

/-- A failed asset record used by the C5 witness. -/
def w5Failed : RepositoryAssetStatus :=
  { name := "a", nspace := "ns", group := "tekton.dev", version := "v1beta1",
    kind := "Task", digest := "", status := "failed", statusMessage := "x" }

/-- An active asset record used by the C5 witness. -/
def w5Active : RepositoryAssetStatus :=
  { name := "a", nspace := "ns", group := "tekton.dev", version := "v1beta1",
    kind := "Task", digest := "", status := "active", statusMessage := "" }

/-- A live object owned by this stack only, used by the C5 witness. -/
def w5ObjSolo : KObject :=
  { name := "a", nspace := "ns", group := "tekton.dev", version := "v1beta1",
    kind := "Task", ownerRefs := [{ uid := "u1" }] }

/-- A live object owned by two stacks, used by the C5 witness. -/
def w5ObjShared : KObject :=
  { name := "a", nspace := "ns", group := "tekton.dev", version := "v1beta1",
    kind := "Task", ownerRefs := [{ uid := "u1" }, { uid := "u2" }] }

/-- Closed witness for C5: a failed asset is skipped with no calls; a live
object owned by two stacks loses exactly this stack's reference through an
update; a live object owned only by this stack is deleted outright. -/
theorem deleteAsset_behavior_witness :
    (deleteAsset w5Failed { uid := "u1" } (.found w5ObjSolo) none none = .ok []) ∧
    (deleteAsset w5Active { uid := "u1" } (.found w5ObjShared) none none =
      .ok [.getCall "ns" "a",
           .updateCall { w5ObjShared with ownerRefs := [{ uid := "u2" }] }]) ∧
    (deleteAsset w5Active { uid := "u1" } (.found w5ObjSolo) none none =
      .ok [.getCall "ns" "a", .deleteCall w5ObjSolo]) := by
  refine ⟨?_, ?_, ?_⟩
  · exact (deleteAsset_behavior _ _ _ _ _).1 (Or.inl (by decide))
  · have h := (((deleteAsset_behavior w5Active { uid := "u1" } (.found w5ObjShared)
      none none).2 (by decide) (by decide)).2 _ rfl rfl rfl).2.2 (by decide)
    simpa [w5Active, w5ObjShared] using h
  · have h := (((deleteAsset_behavior w5Active { uid := "u1" } (.found w5ObjSolo)
      none none).2 (by decide) (by decide)).2 _ rfl rfl rfl).2.1 (by decide)
    simpa [w5Active, w5ObjSolo] using h

/-- Claim C6: when the live object for a tracked asset already exists, the
reconciler appends the stack's owner reference and issues an update only if no
existing owner reference carries that stack's UID, and marks the asset active
with an empty status message in either case; a second reconcile against the
resulting object issues no further create or update call and yields identical
status, and applying the same asset from two owning stacks leaves an object
carrying both owner UIDs. -/
theorem ensureAsset_owner_accrual (tns : String) (owner owner2 : OwnerReference)
    (asset0 : RepositoryAssetStatus) (manifests : List StackAsset)
    (o o2 : AssetOracles) (u : KObject)
    (hlive : o.live (nsDefault tns asset0).nspace (nsDefault tns asset0).name = .found u) :
    ((ensureAsset tns owner asset0 manifests o).asset =
        { nsDefault tns asset0 with status := "active", statusMessage := "" }) ∧
    (hasOwnerUid u owner.uid = true →
      (ensureAsset tns owner asset0 manifests o).calls =
        [.getCall (nsDefault tns asset0).nspace (nsDefault tns asset0).name]) ∧
    (hasOwnerUid u owner.uid = false →
      (ensureAsset tns owner asset0 manifests o).calls =
        [.getCall (nsDefault tns asset0).nspace (nsDefault tns asset0).name,
         .updateCall { u with ownerRefs := u.ownerRefs ++ [owner] }]) ∧
    (o2.live (nsDefault tns asset0).nspace (nsDefault tns asset0).name =
        .found (afterOwner u owner) →
      (ensureAsset tns owner asset0 manifests o2).calls =
          [.getCall (nsDefault tns asset0).nspace (nsDefault tns asset0).name] ∧
      (ensureAsset tns owner asset0 manifests o2).asset =
          (ensureAsset tns owner asset0 manifests o).asset) ∧
    (hasOwnerUid (afterOwner (afterOwner u owner) owner2) owner.uid = true ∧
     hasOwnerUid (afterOwner (afterOwner u owner) owner2) owner2.uid = true) := by
  have hname : (nsDefault tns asset0).name = asset0.name := nsDefault_name tns asset0
  refine ⟨?_, ?_, ?_, ?_, ?_, ?_⟩
  · unfold ensureAsset
    simp only [hlive]
  · intro h
    unfold ensureAsset
    simp only [hlive, h, if_true]
  · intro h
    unfold ensureAsset
    simp only [hlive, h, Bool.false_eq_true, if_false]
  · intro h2
    unfold ensureAsset
    simp only [hlive, h2, hasOwnerUid_afterOwner, if_true]
    simp
  · exact hasOwnerUid_afterOwner_mono _ owner2 owner.uid (hasOwnerUid_afterOwner u owner)
  · exact hasOwnerUid_afterOwner (afterOwner u owner) owner2

/-- An unknown-status asset record used by the C6 witness. -/
def w6Asset : RepositoryAssetStatus :=
  { name := "b", nspace := "", group := "tekton.dev", version := "v1beta1",
    kind := "Pipeline", digest := "d", status := "unknown",
    statusMessage := "Asset has not been applied yet." }

/-- A live object not yet owned by the reconciling stack, for the C6 witness. -/
def w6Obj : KObject :=
  { name := "b", nspace := "ns", group := "tekton.dev", version := "v1beta1",
    kind := "Pipeline", ownerRefs := [{ uid := "other" }] }

/-- Oracles whose cluster read finds `w6Obj`, for the C6 witness. -/
def w6Oracles : AssetOracles :=
  { live := fun _ _ => .found w6Obj, fetch := .ok [],
    transform := fun _ => .error "unused", applyRes := fun _ => none }

/-- Oracles whose cluster read finds the object as left by the first
reconcile, for the C6 witness. -/
def w6Oracles2 : AssetOracles :=
  { live := fun _ _ => .found (afterOwner w6Obj { uid := "u1" }), fetch := .ok [],
    transform := fun _ => .error "unused", applyRes := fun _ => none }

/-- Closed witness for C6: the first reconcile of an object owned by another
stack issues one update appending the owner; the second reconcile issues no
update and produces the same status; the final object carries both UIDs. -/
theorem ensureAsset_owner_accrual_witness :
    ((ensureAsset "ns" { uid := "u1" } w6Asset [] w6Oracles).asset =
        { nsDefault "ns" w6Asset with status := "active", statusMessage := "" }) ∧
    ((ensureAsset "ns" { uid := "u1" } w6Asset [] w6Oracles).calls =
        [.getCall "ns" "b", .updateCall { w6Obj with ownerRefs := w6Obj.ownerRefs ++ [{ uid := "u1" }] }]) ∧
    ((ensureAsset "ns" { uid := "u1" } w6Asset [] w6Oracles2).calls = [.getCall "ns" "b"] ∧
     (ensureAsset "ns" { uid := "u1" } w6Asset [] w6Oracles2).asset =
        (ensureAsset "ns" { uid := "u1" } w6Asset [] w6Oracles).asset) ∧
    (hasOwnerUid (afterOwner (afterOwner w6Obj { uid := "u1" }) { uid := "u2" }) "u1" = true ∧
     hasOwnerUid (afterOwner (afterOwner w6Obj { uid := "u1" }) { uid := "u2" }) "u2" = true) := by
  have h := ensureAsset_owner_accrual "ns" { uid := "u1" } { uid := "u2" } w6Asset []
    w6Oracles w6Oracles2 w6Obj rfl
  refine ⟨h.1, ?_, ?_, ?_⟩
  · have := h.2.2.1 (by decide)
    simpa using this
  · have := h.2.2.2.1 rfl
    simpa using this
  · exact h.2.2.2.2

/-- The fresh asset record processed in the C8 evaluation. -/
def c8Asset : RepositoryAssetStatus :=
  { name := "t", nspace := "ns", group := "tekton.dev", version := "v1beta1",
    kind := "Task", digest := "d", status := "unknown",
    statusMessage := "Asset has not been applied yet." }

/-- The decoded manifest matching `c8Asset`, with an allowed group. -/
def c8Manifest : StackAsset :=
  { name := "t", group := "tekton.dev", version := "v1beta1", kind := "Task",
    sha256 := "d",
    yaml := { name := "t", nspace := "", group := "tekton.dev", version := "v1beta1",
              kind := "Task", ownerRefs := [] } }

/-- Oracles for C8 whose transform fails with message "boom". -/
def c8TransformErr : AssetOracles :=
  { live := fun _ _ => .notFound, fetch := .ok [],
    transform := fun _ => .error "boom", applyRes := fun _ => none }

/-- Oracles for C8 whose transform succeeds and whose apply fails with
message "boom". -/
def c8ApplyErr : AssetOracles :=
  { live := fun _ _ => .notFound, fetch := .ok [],
    transform := fun _ => .ok c8Manifest.yaml, applyRes := fun _ => some "boom" }

/-- Oracles for C8 whose transform and apply both succeed. -/
def c8AllOk : AssetOracles :=
  { live := fun _ _ => .notFound, fetch := .ok [],
    transform := fun _ => .ok c8Manifest.yaml, applyRes := fun _ => none }

/-- Claim C8 (code bug): on the not-found creation path the apply-failure and
success branches record the claimed statuses, but when the transform fails the
source (pipelines.go lines 273-274) assigns `Status = AssetStatusFailed` and
then immediately overwrites `Status` - not `StatusMessage` - with the error
text, so the recorded status is the error message "boom" rather than "failed",
and the status message is left untouched. -/
theorem ensureAsset_transform_error_divergence :
    ((ensureAsset "ns" { uid := "u1" } c8Asset [c8Manifest] c8TransformErr).asset.status = "boom" ∧
     (ensureAsset "ns" { uid := "u1" } c8Asset [c8Manifest] c8TransformErr).asset.statusMessage =
        "Asset has not been applied yet." ∧
     (ensureAsset "ns" { uid := "u1" } c8Asset [c8Manifest] c8TransformErr).asset.status ≠ "failed") ∧
    ((ensureAsset "ns" { uid := "u1" } c8Asset [c8Manifest] c8ApplyErr).asset.status = "failed" ∧
     (ensureAsset "ns" { uid := "u1" } c8Asset [c8Manifest] c8ApplyErr).asset.statusMessage = "boom") ∧
    ((ensureAsset "ns" { uid := "u1" } c8Asset [c8Manifest] c8AllOk).asset.status = "active" ∧
     (ensureAsset "ns" { uid := "u1" } c8Asset [c8Manifest] c8AllOk).asset.statusMessage = "") := by
  decide

/-! ## Group allow-list and partial-failure lemmas -/

/-- The status record after a group allow-list rejection (lines 255-256). -/
def rejectState (st : RepositoryAssetStatus) : RepositoryAssetStatus :=
  { st with status := "failed", statusMessage := rejectionMessage }

lemma applyStep_all_rejected (assetName : String) (o : AssetOracles)
    (manifests : List StackAsset) :
    ∀ (st : RepositoryAssetStatus) (calls : List ClusterCall),
    (∀ m ∈ manifests, m.name = assetName →
      (m.yaml.group ≠ "tekton.dev" ∧ m.yaml.group ≠ "triggers.tekton.dev")) →
    manifests.foldl (applyStep assetName o) (st, calls) =
      (if manifests.any (fun m => decide (assetName = m.name)) then rejectState st else st,
       calls) := by
  induction manifests with
  | nil => intro st calls _; simp
  | cons m rest ih =>
    intro st calls h
    rw [List.foldl_cons]
    by_cases hm : assetName = m.name
    · have hd := h m (List.mem_cons_self m rest) hm.symm
      have hstep : applyStep assetName o (st, calls) m = (rejectState st, calls) := by
        unfold applyStep
        rw [if_pos hm, if_pos hd]
        rfl
      rw [hstep, ih _ _ (fun x hx hn => h x (List.mem_cons_of_mem m hx) hn)]
      have hrr : rejectState (rejectState st) = rejectState st := rfl
      rw [hrr]
      simp [List.any_cons, hm]
    · have hstep : applyStep assetName o (st, calls) m = (st, calls) := by
        unfold applyStep
        rw [if_neg hm]
      rw [hstep, ih _ _ (fun x hx hn => h x (List.mem_cons_of_mem m hx) hn)]
      simp [List.any_cons, hm]

/-- Claim C4: on the not-found path, when a decoded manifest with the asset's
name exists and every such matching manifest declares a group other than
tekton.dev and triggers.tekton.dev, the asset is marked failed with the
rejection message and no apply call is ever issued, whatever the transform
and apply oracles would have done. -/
theorem ensureAsset_group_allowlist (tns : String) (owner : OwnerReference)
    (asset0 : RepositoryAssetStatus) (manifests : List StackAsset) (o : AssetOracles)
    (hlive : o.live (nsDefault tns asset0).nspace (nsDefault tns asset0).name = .notFound)
    (hmatch : ∃ m ∈ (loadManifests manifests o).1, m.name = asset0.name)
    (hall : ∀ m ∈ (loadManifests manifests o).1, m.name = asset0.name →
        (m.yaml.group ≠ "tekton.dev" ∧ m.yaml.group ≠ "triggers.tekton.dev")) :
    (ensureAsset tns owner asset0 manifests o).asset.status = "failed" ∧
    (ensureAsset tns owner asset0 manifests o).asset.statusMessage = rejectionMessage ∧
    (∀ u, ClusterCall.applyCall u ∉ (ensureAsset tns owner asset0 manifests o).calls) := by
  have hany : (loadManifests manifests o).1.any
      (fun m => decide ((nsDefault tns asset0).name = m.name)) = true := by
    rcases hmatch with ⟨m, hm, hname⟩
    refine List.any_eq_true.mpr ⟨m, hm, ?_⟩
    rw [nsDefault_name]
    exact decide_eq_true hname.symm
  have hall' : ∀ m ∈ (loadManifests manifests o).1, m.name = (nsDefault tns asset0).name →
      (m.yaml.group ≠ "tekton.dev" ∧ m.yaml.group ≠ "triggers.tekton.dev") := by
    intro m hm hname
    exact hall m hm (by rw [← nsDefault_name tns asset0]; exact hname)
  unfold ensureAsset
  simp only [hlive]
  unfold applyMatchingManifests
  rw [applyStep_all_rejected _ _ _ _ _ hall', if_pos hany]
  refine ⟨rfl, rfl, ?_⟩
  intro u hu
  simp at hu

/-- A disallowed manifest (group `apps`) matching the C4 witness asset. -/
def w4Manifest : StackAsset :=
  { name := "x", group := "apps", version := "v1", kind := "Deployment",
    sha256 := "d",
    yaml := { name := "x", nspace := "", group := "apps", version := "v1",
              kind := "Deployment", ownerRefs := [] } }

/-- The tracked asset of the C4 witness. -/
def w4Asset : RepositoryAssetStatus :=
  { name := "x", nspace := "ns", group := "apps", version := "v1",
    kind := "Deployment", digest := "d", status := "unknown",
    statusMessage := "Asset has not been applied yet." }

/-- Oracles of the C4 witness: the object is absent and transform/apply would
succeed if they were ever reached. -/
def w4Oracles : AssetOracles :=
  { live := fun _ _ => .notFound, fetch := .ok [],
    transform := fun _ => .ok w4Manifest.yaml, applyRes := fun _ => none }

/-- Closed witness for C4: the disallowed manifest is rejected, never applied. -/
theorem ensureAsset_group_allowlist_witness :
    (ensureAsset "ns" { uid := "u1" } w4Asset [w4Manifest] w4Oracles).asset.status = "failed" ∧
    (ensureAsset "ns" { uid := "u1" } w4Asset [w4Manifest] w4Oracles).asset.statusMessage =
      rejectionMessage ∧
    ClusterCall.applyCall w4Manifest.yaml ∉
      (ensureAsset "ns" { uid := "u1" } w4Asset [w4Manifest] w4Oracles).calls := by
  have h := ensureAsset_group_allowlist "ns" { uid := "u1" } w4Asset [w4Manifest] w4Oracles
    (by decide) ⟨w4Manifest, by decide, by decide⟩ (by decide)
  exact ⟨h.1, h.2.1, h.2.2 w4Manifest.yaml⟩

/-- Fetch failure on a pipeline with no recorded assets (lines 173-177):
record the error and skip. -/
lemma ensurePipeline_fetch_error (tns : String) (owner : OwnerReference)
    (v : PipelineUseMapValue) (o : AssetOracles) (e : String)
    (hempty : v.pipelineStatus.activeAssets = []) (hfetch : o.fetch = .error e) :
    ensurePipeline tns owner v o =
      { value := { v with manifestError := some e }, fetches := 1, calls := [] } := by
  unfold ensurePipeline
  simp only [hempty, List.isEmpty_nil, if_true, hfetch]

/-- Claim C7: a fetch/decode failure for one pipeline's manifests is recorded
in that pipeline's manifest error and the pipeline is skipped; the overall
reconciliation still returns successfully and every other positive-use-count
entry is processed with its own result; and a tracked asset that is not found
in the cluster while the manifests cannot be re-fetched is marked failed with
exactly the message "Manifests are no longer available at specified URL",
after a single fetch attempt during that asset's processing. -/
theorem activatePipelines_partial_failure (tns : String) (owner : OwnerReference) :
    (∀ (v : PipelineUseMapValue) (o : AssetOracles) (e : String),
        v.pipelineStatus.activeAssets = [] → o.fetch = .error e →
        ensurePipeline tns owner v o =
          { value := { v with manifestError := some e }, fetches := 1, calls := [] }) ∧
    (∀ (st : ComponentStatus) (sp : ComponentSpec) (o : PipelineUseMapKey → AssetOracles)
        (m : UseMap),
        countPhase st sp = .ok m →
        activatePipelines sp st tns owner o =
          .ok (ensurePhase tns owner m o, deleteSchedule tns m)) ∧
    (∀ (m : UseMap) (o : PipelineUseMapKey → AssetOracles) (k : PipelineUseMapKey)
        (v : PipelineUseMapValue),
        (k, v) ∈ m → 0 < v.useCount →
        (k, (ensurePipeline tns owner v (o k)).value) ∈ ensurePhase tns owner m o) ∧
    (∀ (asset0 : RepositoryAssetStatus) (o : AssetOracles) (e : String),
        o.live (nsDefault tns asset0).nspace (nsDefault tns asset0).name = .notFound →
        o.fetch = .error e →
        (ensureAsset tns owner asset0 [] o).asset.status = "failed" ∧
        (ensureAsset tns owner asset0 [] o).asset.statusMessage = manifestsGoneMessage ∧
        (ensureAsset tns owner asset0 [] o).fetches = 1) := by
  refine ⟨ensurePipeline_fetch_error tns owner, ?_, ?_, ?_⟩
  · intro st sp o m hm
    unfold activatePipelines
    rw [hm]
    rfl
  · intro m o k v hmem hpos
    have h := List.mem_map_of_mem
      (fun e => if 0 < e.2.useCount then (e.1, (ensurePipeline tns owner e.2 (o e.1)).value) else e)
      hmem
    unfold ensurePhase
    simpa [hpos] using h
  · intro asset0 o e hlive hfetch
    unfold ensureAsset
    simp only [hlive]
    unfold loadManifests
    simp [hfetch, applyMatchingManifests]

/-- The empty-assets use-map value of the C7 witness. -/
def w7Value : PipelineUseMapValue :=
  { pipelineStatus :=
      { name := "p", url := "https://x/p.tar.gz", gitRelease := GitReleaseInfo.zero,
        digest := "d", activeAssets := [] },
    useCount := 1, manifests := [], manifestError := none }

/-- Failing-fetch oracles of the C7 witness. -/
def w7Oracles : AssetOracles :=
  { live := fun _ _ => .notFound, fetch := .error "connection refused",
    transform := fun _ => .error "unused", applyRes := fun _ => none }

/-- The expected skipped-pipeline result of the C7 witness. -/
def w7Expected : EnsurePipelineResult :=
  { value := { w7Value with manifestError := some "connection refused" },
    fetches := 1, calls := [] }

/-- The use-map key of the C7 witness. -/
def w7Key : PipelineUseMapKey :=
  { url := "u", gitRelease := GitReleaseInfo.zero, digest := "d" }

/-- Closed witness for C7: the fetch failure is recorded and skipped; the
overall model still returns ok; the sibling entry is processed; the not-found
asset is marked with the exact message after one fetch attempt. -/
theorem activatePipelines_partial_failure_witness :
    (ensurePipeline "ns" { uid := "u1" } w7Value w7Oracles = w7Expected) ∧
    (activatePipelines { versions := [] } { versions := [] } "ns" { uid := "u1" }
        (fun _ => w7Oracles) =
      .ok (ensurePhase "ns" { uid := "u1" } [] (fun _ => w7Oracles),
           deleteSchedule "ns" [])) ∧
    ((w7Key,
        (ensurePipeline "ns" { uid := "u1" } w7Value ((fun _ => w7Oracles) w7Key)).value) ∈
      ensurePhase "ns" { uid := "u1" } [(w7Key, w7Value)] (fun _ => w7Oracles)) ∧
    ((ensureAsset "ns" { uid := "u1" } w4Asset [] w7Oracles).asset.status = "failed" ∧
     (ensureAsset "ns" { uid := "u1" } w4Asset [] w7Oracles).asset.statusMessage =
        manifestsGoneMessage ∧
     (ensureAsset "ns" { uid := "u1" } w4Asset [] w7Oracles).fetches = 1) := by
  have h := activatePipelines_partial_failure "ns" { uid := "u1" }
  refine ⟨?_, ?_, ?_, ?_⟩
  · exact h.1 w7Value w7Oracles "connection refused" rfl rfl
  · exact h.2.1 { versions := [] } { versions := [] } (fun _ => w7Oracles) [] rfl
  · exact h.2.2.1 _ (fun _ => w7Oracles) _ w7Value (by simp) (by decide)
  · exact h.2.2.2 w4Asset w7Oracles "connection refused" (by decide) rfl

/-! ## Decode-path lemmas -/

lemma exceptBind_ok {α β : Type} (a : α) (f : α → Except String β) :
    (Except.ok a : Except String α).bind f = f a := rfl

lemma exceptBind_error {α β : Type} (e : String) (f : α → Except String β) :
    (Except.error e : Except String α).bind f = Except.error e := rfl

lemma exceptMap_ok {α β : Type} (a : α) (f : α → β) :
    Except.map f (Except.ok a : Except String α) = Except.ok (f a) := rfl

lemma foldl_passTwoStep_error (sha : List Nat → List Nat)
    (render : List Nat → String → String → Except String (List StackAsset))
    (sm : StackManifest) (l : List TarEntry) (msg : String) :
    l.foldl (passTwoStep sha render sm) (.error msg) = .error msg := by
  induction l with
  | nil => rfl
  | cons a t ih => rw [List.foldl_cons]; exact ih

lemma foldl_passTwoStep_isOk_false (sha : List Nat → List Nat)
    (render : List Nat → String → String → Except String (List StackAsset))
    (sm : StackManifest) (e : TarEntry)
    (hname : dropDotSlash e.name ≠ "manifest.yaml")
    (hyaml : endsWithS e.name ".yaml" = true)
    (hcheck : (checkEntry sha sm e.name e.bytes).isOk = false) :
    ∀ (entries : List TarEntry) (acc : List StackAsset), e ∈ entries →
      (entries.foldl (passTwoStep sha render sm) (.ok acc)).isOk = false := by
  intro entries
  induction entries with
  | nil => intro acc h; cases h
  | cons a t ih =>
    intro acc he
    rw [List.foldl_cons]
    rcases List.mem_cons.mp he with rfl | ht
    · have hstep : ∃ msg, passTwoStep sha render sm (.ok acc) e = .error msg := by
        unfold passTwoStep
        cases hce : checkEntry sha sm e.name e.bytes with
        | error m =>
            exact ⟨m, by simp [exceptBind_ok, exceptBind_error, hname, hyaml, hce]⟩
        | ok v => rw [hce] at hcheck; simp [Except.isOk, Except.toBool] at hcheck
      rcases hstep with ⟨msg, hmsg⟩
      rw [hmsg, foldl_passTwoStep_error]
      rfl
    · cases hsa : passTwoStep sha render sm (.ok acc) a with
      | error m => rw [foldl_passTwoStep_error]; rfl
      | ok acc2 => exact ih acc2 ht

lemma foldl_checkStep_error (sha : List Nat → List Nat) (name : String) (b : List Nat)
    (l : List StackContents) (msg : String) :
    l.foldl (checkStep sha name b) (.error msg) = .error msg := by
  induction l with
  | nil => rfl
  | cons a t ih => rw [List.foldl_cons]; exact ih

lemma checkStep_skip_all (sha : List Nat → List Nat) (name : String) (b : List Nat) :
    ∀ (l : List StackContents) (s : Bool × String), (∀ c ∈ l, c.file ≠ dropDotSlash name) →
      l.foldl (checkStep sha name b) (.ok s) = .ok s := by
  intro l
  induction l with
  | nil => intro s _; rfl
  | cons a t ih =>
    intro s h
    rw [List.foldl_cons]
    have hstep : checkStep sha name b (.ok s) a = .ok s := by
      unfold checkStep
      simp only [exceptBind_ok]
      rw [if_neg (h a (List.mem_cons_self a t))]
    rw [hstep]
    exact ih s (fun c hc => h c (List.mem_cons_of_mem a hc))

/-- An archive file matched by no index entry fails the checksum check. -/
lemma checkEntry_unindexed (sha : List Nat → List Nat) (sm : StackManifest)
    (name : String) (b : List Nat)
    (h : ∀ c ∈ sm.contents, c.file ≠ dropDotSlash name) :
    (checkEntry sha sm name b).isOk = false := by
  unfold checkEntry
  rw [checkStep_skip_all sha name b sm.contents (false, "") h]
  rfl

lemma foldl_checkStep_mismatch (sha : List Nat → List Nat) (name : String) (b : List Nat)
    (c : StackContents) (d : List Nat)
    (hf : c.file = dropDotSlash name) (hne : c.sha256 ≠ "")
    (hd : hexDecode c.sha256 = some d) (hmis : sha b ≠ padTo32 d) :
    ∀ (l : List StackContents) (s : Bool × String), c ∈ l →
      (l.foldl (checkStep sha name b) (.ok s)).isOk = false := by
  intro l
  induction l with
  | nil => intro s h; cases h
  | cons a t ih =>
    intro s hc
    rw [List.foldl_cons]
    rcases List.mem_cons.mp hc with rfl | ht
    · have hstep : checkStep sha name b (.ok s) c =
          .error ("Archive file: " ++ name ++
            "  manifest.yaml checksum:  did not match file checksum") := by
        unfold checkStep
        simp only [exceptBind_ok]
        simp [hf, hne, hd, hmis]
      rw [hstep, foldl_checkStep_error]
      rfl
    · cases hsa : checkStep sha name b (.ok s) a with
      | error m => rw [foldl_checkStep_error]; rfl
      | ok s2 => exact ih s2 ht

/-- A matched file whose recorded non-empty checksum differs from its hash
fails the checksum check. -/
lemma checkEntry_mismatch (sha : List Nat → List Nat) (sm : StackManifest)
    (name : String) (b : List Nat) (c : StackContents) (d : List Nat)
    (hc : c ∈ sm.contents) (hf : c.file = dropDotSlash name) (hne : c.sha256 ≠ "")
    (hd : hexDecode c.sha256 = some d) (hmis : sha b ≠ padTo32 d) :
    (checkEntry sha sm name b).isOk = false := by
  unfold checkEntry
  have h := foldl_checkStep_mismatch sha name b c d hf hne hd hmis sm.contents (false, "") hc
  cases hfold : sm.contents.foldl (checkStep sha name b) (.ok (false, "")) with
  | error m => rfl
  | ok s => rw [hfold] at h; simp [Except.isOk, Except.toBool] at h

lemma checkStep_empty_accept (sha : List Nat → List Nat) (name : String) (b : List Nat) :
    ∀ (l : List StackContents) (flag : Bool),
      (∀ c ∈ l, c.file = dropDotSlash name → c.sha256 = "") →
      l.foldl (checkStep sha name b) (.ok (flag, "")) =
        .ok (flag || l.any (fun c => decide (c.file = dropDotSlash name)), "") := by
  intro l
  induction l with
  | nil => intro flag _; simp
  | cons a t ih =>
    intro flag h
    rw [List.foldl_cons]
    by_cases hm : a.file = dropDotSlash name
    · have hempty := h a (List.mem_cons_self a t) hm
      have hstep : checkStep sha name b (.ok (flag, "")) a = .ok (true, "") := by
        unfold checkStep
        simp only [exceptBind_ok]
        simp [hm, hempty]
      rw [hstep, ih true (fun c hc hcf => h c (List.mem_cons_of_mem a hc) hcf)]
      simp [List.any_cons, hm]
    · have hstep : checkStep sha name b (.ok (flag, "")) a = .ok (flag, "") := by
        unfold checkStep
        simp only [exceptBind_ok]
        simp [hm]
      rw [hstep, ih flag (fun c hc hcf => h c (List.mem_cons_of_mem a hc) hcf)]
      simp [List.any_cons, hm]

/-- A file matched only by empty-checksum index entries is accepted, with the
empty checksum string handed on. -/
lemma checkEntry_empty_ok (sha : List Nat → List Nat) (sm : StackManifest)
    (name : String) (b : List Nat)
    (hex : ∃ c ∈ sm.contents, c.file = dropDotSlash name)
    (hall : ∀ c ∈ sm.contents, c.file = dropDotSlash name → c.sha256 = "") :
    checkEntry sha sm name b = .ok "" := by
  unfold checkEntry
  rw [checkStep_empty_accept sha name b sm.contents false hall]
  rcases hex with ⟨c, hc, hcf⟩
  have hany : sm.contents.any (fun c => decide (c.file = dropDotSlash name)) = true :=
    List.any_eq_true.mpr ⟨c, hc, decide_eq_true hcf⟩
  rw [hany]
  rfl

lemma foldl_passTwoStep_ok_of_all (sha : List Nat → List Nat)
    (render : List Nat → String → String → Except String (List StackAsset))
    (sm : StackManifest) :
    ∀ (entries : List TarEntry) (acc : List StackAsset),
      (∀ e ∈ entries, dropDotSlash e.name ≠ "manifest.yaml" → endsWithS e.name ".yaml" = true →
        ∃ asum ms, checkEntry sha sm e.name e.bytes = .ok asum ∧
          render e.bytes e.name asum = .ok ms) →
      ∃ out, entries.foldl (passTwoStep sha render sm) (.ok acc) = .ok out := by
  intro entries
  induction entries with
  | nil => intro acc _; exact ⟨acc, rfl⟩
  | cons a t ih =>
    intro acc h
    rw [List.foldl_cons]
    by_cases hmani : dropDotSlash a.name = "manifest.yaml"
    · have hstep : passTwoStep sha render sm (.ok acc) a = .ok acc := by
        unfold passTwoStep
        simp only [exceptBind_ok]
        rw [if_pos hmani]
      rw [hstep]
      exact ih acc (fun e he h1 h2 => h e (List.mem_cons_of_mem a he) h1 h2)
    · by_cases hyaml : endsWithS a.name ".yaml" = true
      · rcases h a (List.mem_cons_self a t) hmani hyaml with ⟨asum, ms, hce, hr⟩
        have hstep : passTwoStep sha render sm (.ok acc) a = .ok (acc ++ ms) := by
          unfold passTwoStep
          simp [exceptBind_ok, exceptMap_ok, hmani, hyaml, hce, hr]
        rw [hstep]
        exact ih (acc ++ ms) (fun e he h1 h2 => h e (List.mem_cons_of_mem a he) h1 h2)
      · have hstep : passTwoStep sha render sm (.ok acc) a = .ok acc := by
          unfold passTwoStep
          simp only [exceptBind_ok]
          simp [hmani, hyaml]
        rw [hstep]
        exact ih acc (fun e he h1 h2 => h e (List.mem_cons_of_mem a he) h1 h2)

/-- When extraction and pass 1 succeed, the decode is exactly pass 2. -/
lemma decodeManifests_eq_passTwo (untar : List Nat → Except String (List TarEntry))
    (parseIndex : List Nat → Except String StackManifest)
    (sha : List Nat → List Nat)
    (render : List Nat → String → String → Except String (List StackAsset))
    (archive : List Nat) (entries : List TarEntry) (sm : StackManifest)
    (hun : untar archive = .ok entries)
    (hp1 : passOne parseIndex entries = .ok sm) :
    decodeManifests untar parseIndex sha render archive = passTwo sha render sm entries := by
  unfold decodeManifests
  rw [hun]
  show (passOne parseIndex entries).bind _ = _
  rw [hp1]
  rfl

/-- Claim C2: in an archive whose `manifest.yaml` index was found in pass 1,
every non-manifest entry ending in `.yaml` is cross-checked: a file with no
matching index entry fails the whole decode; a matching index entry with a
non-empty checksum that differs from the file's hash fails the whole decode;
a file matched only by empty-checksum entries is accepted and, when all files
check out and render, the decode succeeds. -/
theorem decodeManifests_checksum_enforcement
    (untar : List Nat → Except String (List TarEntry))
    (parseIndex : List Nat → Except String StackManifest)
    (sha : List Nat → List Nat)
    (render : List Nat → String → String → Except String (List StackAsset))
    (archive : List Nat) (entries : List TarEntry) (sm : StackManifest)
    (hun : untar archive = .ok entries)
    (hp1 : passOne parseIndex entries = .ok sm) :
    (∀ e ∈ entries, dropDotSlash e.name ≠ "manifest.yaml" → endsWithS e.name ".yaml" = true →
      ((∀ c ∈ sm.contents, c.file ≠ dropDotSlash e.name) →
        (decodeManifests untar parseIndex sha render archive).isOk = false) ∧
      (∀ c ∈ sm.contents, c.file = dropDotSlash e.name → c.sha256 ≠ "" →
        ∀ d, hexDecode c.sha256 = some d → sha e.bytes ≠ padTo32 d →
        (decodeManifests untar parseIndex sha render archive).isOk = false) ∧
      ((∃ c ∈ sm.contents, c.file = dropDotSlash e.name) →
       (∀ c ∈ sm.contents, c.file = dropDotSlash e.name → c.sha256 = "") →
        checkEntry sha sm e.name e.bytes = .ok "")) ∧
    ((∀ e ∈ entries, dropDotSlash e.name ≠ "manifest.yaml" → endsWithS e.name ".yaml" = true →
        ∃ asum ms, checkEntry sha sm e.name e.bytes = .ok asum ∧
          render e.bytes e.name asum = .ok ms) →
      (decodeManifests untar parseIndex sha render archive).isOk = true) := by
  have hdec := decodeManifests_eq_passTwo untar parseIndex sha render archive entries sm hun hp1
  constructor
  · intro e he hname hyaml
    refine ⟨?_, ?_, ?_⟩
    · intro hnone
      rw [hdec]
      exact foldl_passTwoStep_isOk_false sha render sm e hname hyaml
        (checkEntry_unindexed sha sm e.name e.bytes hnone) entries [] he
    · intro c hc hcf hcne d hd hmis
      rw [hdec]
      exact foldl_passTwoStep_isOk_false sha render sm e hname hyaml
        (checkEntry_mismatch sha sm e.name e.bytes c d hc hcf hcne hd hmis) entries [] he
    · intro hex hall
      exact checkEntry_empty_ok sha sm e.name e.bytes hex hall
  · intro hall
    rw [hdec]
    rcases foldl_passTwoStep_ok_of_all sha render sm entries [] hall with ⟨out, hout⟩
    unfold passTwo
    rw [hout]
    rfl

/-- The hash oracle of the decode witnesses: every payload hashes to the
32-zero-byte array. -/
def w2Sha : List Nat → List Nat := fun _ => padTo32 []

/-- The renderer oracle of the decode witnesses: renders to no assets. -/
def w2Render : List Nat → String → String → Except String (List StackAsset) :=
  fun _ _ _ => .ok []

/-- An index listing nothing, for the unindexed-file witness. -/
def w2SmU : StackManifest := { contents := [] }

/-- An index whose only entry carries a mismatching checksum. -/
def w2SmM : StackManifest := { contents := [{ file := "a.yaml", sha256 := "ff" }] }

/-- An index whose only entry carries an empty checksum. -/
def w2SmE : StackManifest := { contents := [{ file := "b.yaml", sha256 := "" }] }

/-- Archive entries containing a file absent from the index. -/
def w2EntriesU : List TarEntry :=
  [{ name := "manifest.yaml", bytes := [1] }, { name := "c.yaml", bytes := [2] }]

/-- Archive entries containing the mismatching file. -/
def w2EntriesM : List TarEntry :=
  [{ name := "manifest.yaml", bytes := [1] }, { name := "a.yaml", bytes := [2] }]

/-- Archive entries containing the empty-checksum file. -/
def w2EntriesE : List TarEntry :=
  [{ name := "manifest.yaml", bytes := [1] }, { name := "b.yaml", bytes := [3] }]

/-- Extraction oracle for the unindexed-file witness archive. -/
def w2UntarU : List Nat → Except String (List TarEntry) := fun _ => .ok w2EntriesU

/-- Extraction oracle for the mismatch witness archive. -/
def w2UntarM : List Nat → Except String (List TarEntry) := fun _ => .ok w2EntriesM

/-- Extraction oracle for the empty-checksum witness archive. -/
def w2UntarE : List Nat → Except String (List TarEntry) := fun _ => .ok w2EntriesE

/-- Index parser for the unindexed-file witness archive. -/
def w2ParseU : List Nat → Except String StackManifest := fun _ => .ok w2SmU

/-- Index parser for the mismatch witness archive. -/
def w2ParseM : List Nat → Except String StackManifest := fun _ => .ok w2SmM

/-- Index parser for the empty-checksum witness archive. -/
def w2ParseE : List Nat → Except String StackManifest := fun _ => .ok w2SmE

/-- Closed witness for C2: an unindexed file aborts the decode; a checksum
mismatch aborts the decode; an empty-checksum file is accepted and its
archive decodes successfully. -/
theorem decodeManifests_checksum_enforcement_witness :
    (decodeManifests w2UntarU w2ParseU w2Sha w2Render [0]).isOk = false ∧
    (decodeManifests w2UntarM w2ParseM w2Sha w2Render [0]).isOk = false ∧
    checkEntry w2Sha w2SmE "b.yaml" [3] = .ok "" ∧
    (decodeManifests w2UntarE w2ParseE w2Sha w2Render [0]).isOk = true := by
  have hU := decodeManifests_checksum_enforcement w2UntarU w2ParseU w2Sha w2Render
    [0] w2EntriesU w2SmU rfl rfl
  have hM := decodeManifests_checksum_enforcement w2UntarM w2ParseM w2Sha w2Render
    [0] w2EntriesM w2SmM rfl rfl
  have hE := decodeManifests_checksum_enforcement w2UntarE w2ParseE w2Sha w2Render
    [0] w2EntriesE w2SmE rfl rfl
  refine ⟨?_, ?_, ?_, ?_⟩
  · exact (hU.1 { name := "c.yaml", bytes := [2] } (by decide) (by decide) (by decide)).1
      (by decide)
  · exact (hM.1 { name := "a.yaml", bytes := [2] } (by decide) (by decide) (by decide)).2.1
      { file := "a.yaml", sha256 := "ff" } (by decide) (by decide) (by decide) [255] rfl
      (by decide)
  · exact (hE.1 { name := "b.yaml", bytes := [3] } (by decide) (by decide) (by decide)).2.2
      ⟨{ file := "b.yaml", sha256 := "" }, by decide, by decide⟩
      (by decide)
  · refine hE.2 ?_
    intro e he h1 h2
    rcases List.mem_cons.mp he with rfl | he2
    · exact absurd (by decide) h1
    · rcases List.mem_cons.mp he2 with rfl | h3
      · exact ⟨"", [], rfl, rfl⟩
      · cases h3

/-- Claim C3: `GetManifests` classifies the payload purely by filename suffix
(the URL path, or the git-release asset name when the git-release info is
usable): for an archive suffix a digest mismatch is a hard failure returning
no assets; for a single-manifest suffix the payload is rendered regardless of
any mismatch (the mismatch is only logged), so assets are produced whenever
the renderer succeeds; any other suffix is an error. -/
theorem getManifests_suffix_policy
    (fo : FetchOracles)
    (untar : List Nat → Except String (List TarEntry))
    (parseIndex : List Nat → Except String StackManifest)
    (sha : List Nat → List Nat)
    (render : List Nat → String → String → Except String (List StackAsset))
    (urlPath : String → Except String String)
    (ps : PipelineStatusRec) (b : List Nat) (pathName : String) (d : List Nat)
    (hdl : downloadToByte fo ps.url ps.gitRelease = .ok b)
    (hpath : urlPath ps.url = .ok pathName)
    (hdig : hexDecode ps.digest = some d) :
    ((endsWithS (fileNameOf ps pathName) ".tar.gz" ||
        endsWithS (fileNameOf ps pathName) ".tgz") = true →
      sha b ≠ padTo32 d →
      (getManifests fo untar parseIndex sha render urlPath ps).isOk = false) ∧
    ((endsWithS (fileNameOf ps pathName) ".tar.gz" ||
        endsWithS (fileNameOf ps pathName) ".tgz") = false →
     (endsWithS (fileNameOf ps pathName) ".yaml" ||
        endsWithS (fileNameOf ps pathName) ".yml") = true →
      getManifests fo untar parseIndex sha render urlPath ps =
        render b ps.name (hexEncode (sha b))) ∧
    ((endsWithS (fileNameOf ps pathName) ".tar.gz" ||
        endsWithS (fileNameOf ps pathName) ".tgz") = false →
     (endsWithS (fileNameOf ps pathName) ".yaml" ||
        endsWithS (fileNameOf ps pathName) ".yml") = false →
      (getManifests fo untar parseIndex sha render urlPath ps).isOk = false) := by
  refine ⟨?_, ?_, ?_⟩
  · intro hsuf hmis
    have hft : getPipelineFileType urlPath ps = .ok .tarGzType := by
      unfold getPipelineFileType
      rw [hpath, exceptMap_ok]
      unfold classifySuffix
      rw [if_pos hsuf]
    unfold getManifests
    rw [hdl]
    simp only [exceptBind_ok, hdig, hft]
    simp [hmis, Except.isOk, Except.toBool]
  · intro hsufT hsufY
    have hft : getPipelineFileType urlPath ps = .ok .yamlType := by
      unfold getPipelineFileType
      rw [hpath, exceptMap_ok]
      unfold classifySuffix
      rw [if_neg (by simp [hsufT]), if_pos hsufY]
    unfold getManifests
    rw [hdl]
    simp only [exceptBind_ok, hdig, hft]
  · intro hsufT hsufY
    have hft : getPipelineFileType urlPath ps = .ok .unrecognized := by
      unfold getPipelineFileType
      rw [hpath, exceptMap_ok]
      unfold classifySuffix
      rw [if_neg (by simp [hsufT]), if_neg (by simp [hsufY])]
    unfold getManifests
    rw [hdl]
    simp only [exceptBind_ok, hdig, hft]
    rfl

/-- The archive-suffix pipeline status of the C3 witness. -/
def w3PsTar : PipelineStatusRec :=
  { name := "p", url := "https://h/p.tar.gz", gitRelease := GitReleaseInfo.zero,
    digest := "ff", activeAssets := [] }

/-- The yaml-suffix pipeline status of the C3 witness. -/
def w3PsYaml : PipelineStatusRec :=
  { name := "p", url := "https://h/m.yaml", gitRelease := GitReleaseInfo.zero,
    digest := "ff", activeAssets := [] }

/-- The unrecognized-suffix pipeline status of the C3 witness. -/
def w3PsZip : PipelineStatusRec :=
  { name := "p", url := "https://h/p.zip", gitRelease := GitReleaseInfo.zero,
    digest := "ff", activeAssets := [] }

/-- The transport oracles of the C3 witness: every URL yields the byte 7. -/
def w3Fo : FetchOracles :=
  { http := fun _ => .ok [7], git := fun _ => .error "unused" }

/-- The URL parser oracle of the C3 witness. -/
def w3Path : String → Except String String := fun u =>
  if u = "https://h/p.tar.gz" then .ok "/p.tar.gz"
  else if u = "https://h/m.yaml" then .ok "/m.yaml"
  else .ok "/p.zip"

/-- Closed witness for C3: with a digest that does not match the payload, the
archive suffix fails hard, the yaml suffix is rendered into an empty asset
list anyway, and the zip suffix is rejected. -/
theorem getManifests_suffix_policy_witness :
    ((getManifests w3Fo w2UntarU w2ParseU w2Sha w2Render w3Path w3PsTar).isOk = false) ∧
    (getManifests w3Fo w2UntarU w2ParseU w2Sha w2Render w3Path w3PsYaml =
      w2Render [7] "p" (hexEncode (w2Sha [7]))) ∧
    ((getManifests w3Fo w2UntarU w2ParseU w2Sha w2Render w3Path w3PsZip).isOk = false) := by
  refine ⟨?_, ?_, ?_⟩
  · exact (getManifests_suffix_policy w3Fo w2UntarU w2ParseU w2Sha w2Render w3Path
      w3PsTar [7] "/p.tar.gz" [255] rfl rfl rfl).1 (by decide) (by decide)
  · exact (getManifests_suffix_policy w3Fo w2UntarU w2ParseU w2Sha w2Render w3Path
      w3PsYaml [7] "/m.yaml" [255] rfl rfl rfl).2.1 (by decide) (by decide)
  · exact (getManifests_suffix_policy w3Fo w2UntarU w2ParseU w2Sha w2Render w3Path
      w3PsZip [7] "/p.zip" [255] rfl rfl rfl).2.2 (by decide) (by decide)

/-! ## C9: an archive with one checksum-mismatched file among valid files -/

/-- The index of the `bad.pipeline.tar.gz` scenario: `a.yaml` carries a
checksum that will not match, `b.yaml` a valid (empty) one. -/
def c9Manifest : StackManifest :=
  { contents := [{ file := "a.yaml", sha256 := "ff" }, { file := "b.yaml", sha256 := "" }] }

/-- The extracted entries of the scenario archive. -/
def c9Entries : List TarEntry :=
  [{ name := "manifest.yaml", bytes := [1] }, { name := "a.yaml", bytes := [2] },
   { name := "b.yaml", bytes := [3] }]

/-- Extraction oracle: the archive bytes `[9]` extract to the entries above. -/
def c9Untar : List Nat → Except String (List TarEntry) :=
  fun b => if b = [9] then .ok c9Entries else .error "Could not read manifest gzip"

/-- Index parser for the scenario archive. -/
def c9Parse : List Nat → Except String StackManifest :=
  fun b => if b = [1] then .ok c9Manifest else .error "unmarshal"

/-- Renderer producing one valid tekton asset per file. -/
def c9Render : List Nat → String → String → Except String (List StackAsset) :=
  fun _ n a =>
    .ok [{ name := n, group := "tekton.dev", version := "v1beta1", kind := "Task",
           sha256 := a,
           yaml := { name := n, nspace := "", group := "tekton.dev",
                     version := "v1beta1", kind := "Task", ownerRefs := [] } }]

/-- The whole-archive digest: sixty-four zeros, matching `w2Sha` of any
payload, so the archive-level digest check passes and the decode is reached. -/
def c9Ps : PipelineStatusRec :=
  { name := "bad", url := "https://h/bad.pipeline.tar.gz", gitRelease := GitReleaseInfo.zero,
    digest := "0000000000000000000000000000000000000000000000000000000000000000",
    activeAssets := [] }

/-- The fresh use-map value for the scenario pipeline. -/
def c9Value : PipelineUseMapValue :=
  { pipelineStatus := c9Ps, useCount := 1, manifests := [], manifestError := none }

/-- The fetch outcome of the scenario: `GetManifests` over the bad archive. -/
def c9Fetch : Except String (List StackAsset) :=
  getManifests { http := fun _ => .ok [9], git := fun _ => .error "unused" }
    c9Untar c9Parse w2Sha c9Render (fun _ => .ok "/bad.pipeline.tar.gz") c9Ps

/-- A blank object for the unused transform oracle of the scenario. -/
def c9Blank : KObject :=
  { name := "", nspace := "", group := "", version := "", kind := "", ownerRefs := [] }

/-- The asset oracles of the scenario reconciliation. -/
def c9Oracles : AssetOracles :=
  { live := fun _ _ => .notFound, fetch := c9Fetch,
    transform := fun _ => .ok c9Blank, applyRes := fun _ => none }

/-- Counterexample to C9 as stated: for the concrete archive containing one
checksum-mismatched file (`a.yaml`) and one valid file (`b.yaml`), the whole
decode fails, `GetManifests` returns no assets, and the reconciliation of the
pipeline records only a manifest error - no asset of the archive reaches
status active, contradicting "the other asset has status active". -/
theorem archive_mismatch_no_active_asset_counterexample :
    (decodeManifests c9Untar c9Parse w2Sha c9Render [9]).isOk = false ∧
    c9Fetch.isOk = false ∧
    (ensurePipeline "kabanero" { uid := "u1" } c9Value c9Oracles).value.pipelineStatus.activeAssets
      = [] ∧
    (ensurePipeline "kabanero" { uid := "u1" } c9Value c9Oracles).value.manifestError ≠ none ∧
    (∀ a ∈ (ensurePipeline "kabanero" { uid := "u1" } c9Value c9Oracles).value.pipelineStatus.activeAssets,
      ¬ a.status = "active") := by
  decide

/-- Claim C9 amended: for an archive containing a file whose non-empty
per-file checksum does not match its index entry, the whole decode fails and
returns no assets - so during reconciliation the pipeline's fetch fails, the
manifest error is recorded, no cluster call is made and no asset of that
archive (the valid one included) becomes active. -/
theorem archive_mismatch_fails_whole_decode
    (untar : List Nat → Except String (List TarEntry))
    (parseIndex : List Nat → Except String StackManifest)
    (sha : List Nat → List Nat)
    (render : List Nat → String → String → Except String (List StackAsset))
    (archive : List Nat) (entries : List TarEntry) (sm : StackManifest)
    (e : TarEntry) (c : StackContents) (d : List Nat)
    (hun : untar archive = .ok entries)
    (hp1 : passOne parseIndex entries = .ok sm)
    (he : e ∈ entries) (hname : dropDotSlash e.name ≠ "manifest.yaml")
    (hyaml : endsWithS e.name ".yaml" = true)
    (hc : c ∈ sm.contents) (hf : c.file = dropDotSlash e.name) (hne : c.sha256 ≠ "")
    (hd : hexDecode c.sha256 = some d) (hmis : sha e.bytes ≠ padTo32 d) :
    (decodeManifests untar parseIndex sha render archive).isOk = false ∧
    (∀ (tns : String) (owner : OwnerReference) (v : PipelineUseMapValue)
        (o : AssetOracles) (em : String),
      v.pipelineStatus.activeAssets = [] → o.fetch = .error em →
      ensurePipeline tns owner v o =
        { value := { v with manifestError := some em }, fetches := 1, calls := [] }) := by
  constructor
  · rw [decodeManifests_eq_passTwo untar parseIndex sha render archive entries sm hun hp1]
    exact foldl_passTwoStep_isOk_false sha render sm e hname hyaml
      (checkEntry_mismatch sha sm e.name e.bytes c d hc hf hne hd hmis) entries [] he
  · intro tns owner v o em hempty hfetch
    exact ensurePipeline_fetch_error tns owner v o em hempty hfetch

/-- The error message the scenario decode produces. -/
def c9ErrMsg : String :=
  "Archive file: a.yaml  manifest.yaml checksum:  did not match file checksum"

/-- The skipped-pipeline result of the scenario reconciliation. -/
def c9Expected : EnsurePipelineResult :=
  { value := { c9Value with manifestError := some c9ErrMsg }, fetches := 1, calls := [] }

/-- Closed witness for the amended C9, at the scenario archive. -/
theorem archive_mismatch_fails_whole_decode_witness :
    (decodeManifests c9Untar c9Parse w2Sha c9Render [9]).isOk = false ∧
    ensurePipeline "kabanero" { uid := "u1" } c9Value c9Oracles = c9Expected := by
  have h := archive_mismatch_fails_whole_decode c9Untar c9Parse w2Sha c9Render [9]
    c9Entries c9Manifest { name := "a.yaml", bytes := [2] }
    { file := "a.yaml", sha256 := "ff" } [255]
    rfl rfl (by decide) (by decide) (by decide) (by decide) (by decide) (by decide)
    rfl (by decide)
  exact ⟨h.1, h.2 "kabanero" { uid := "u1" } c9Value c9Oracles c9ErrMsg rfl rfl⟩

/-! ## Association-map lemmas for the use-count proofs -/

lemma lookupKey_append (m : UseMap) (k0 k : PipelineUseMapKey) (v0 : PipelineUseMapValue) :
    lookupKey (m ++ [(k0, v0)]) k =
      (match lookupKey m k with
       | some v => some v
       | none => if k0 = k then some v0 else none) := by
  induction m with
  | nil => simp [lookupKey]
  | cons e rest ih =>
    by_cases he : e.1 = k
    · simp [lookupKey, he]
    · simp [lookupKey, he, ih]

lemma updateKey_of_not_contains (m : UseMap) (k : PipelineUseMapKey)
    (v : PipelineUseMapValue) (h : containsKey m k = false) : updateKey m k v = m := by
  induction m with
  | nil => rfl
  | cons e rest ih =>
    unfold containsKey lookupKey at h
    by_cases he : e.1 = k
    · rw [if_pos he] at h
      simp [Option.isSome] at h
    · rw [if_neg he] at h
      unfold updateKey
      rw [if_neg he]
      rw [ih h]

lemma lookupKey_updateKey_self (m : UseMap) (k : PipelineUseMapKey)
    (v : PipelineUseMapValue) (h : containsKey m k = true) :
    lookupKey (updateKey m k v) k = some v := by
  induction m with
  | nil => simp [containsKey, lookupKey, Option.isSome] at h
  | cons e rest ih =>
    by_cases he : e.1 = k
    · unfold updateKey
      rw [if_pos he]
      simp [lookupKey]
    · unfold containsKey lookupKey at h
      rw [if_neg he] at h
      unfold updateKey
      rw [if_neg he]
      unfold lookupKey
      rw [if_neg he]
      exact ih h

lemma lookupKey_updateKey_ne (m : UseMap) (k k' : PipelineUseMapKey)
    (v : PipelineUseMapValue) (h : k' ≠ k) :
    lookupKey (updateKey m k v) k' = lookupKey m k' := by
  induction m with
  | nil => rfl
  | cons e rest ih =>
    by_cases he : e.1 = k
    · unfold updateKey
      rw [if_pos he]
      unfold lookupKey
      have h1 : ¬ ((k, v).1 = k') := fun hk => h hk.symm
      have h2 : ¬ (e.1 = k') := fun hk => h (hk.symm.trans he)
      rw [if_neg h1, if_neg h2]
    · unfold updateKey
      rw [if_neg he]
      unfold lookupKey
      by_cases he' : e.1 = k'
      · rw [if_pos he', if_pos he']
      · rw [if_neg he', if_neg he']
        exact ih

lemma containsKey_updateKey (m : UseMap) (k k' : PipelineUseMapKey)
    (v : PipelineUseMapValue) : containsKey (updateKey m k v) k' = containsKey m k' := by
  by_cases hk : k' = k
  · subst hk
    cases hc : containsKey m k'
    · rw [updateKey_of_not_contains m k' v hc, hc]
    · unfold containsKey
      rw [lookupKey_updateKey_self m k' v hc]
      rfl
  · unfold containsKey
    rw [lookupKey_updateKey_ne m k k' v hk]

/-! ## Count-evolution lemmas for the three phases -/

lemma countAt_seedStep (m : UseMap) (p : PipelineStatusRec) (k : PipelineUseMapKey) :
    countAt (seedStep m p) k = countAt m k + (if pipelineStatusKey p = k then 1 else 0) := by
  unfold seedStep
  cases hl : lookupKey m (pipelineStatusKey p) with
  | none =>
      simp only [hl]
      by_cases hk : pipelineStatusKey p = k
      · subst hk
        unfold countAt
        rw [lookupKey_append, hl]
        simp
      · unfold countAt
        rw [lookupKey_append]
        cases hlk : lookupKey m k with
        | none => simp [hk]
        | some v => simp [hk]
  | some v =>
      simp only [hl]
      by_cases hk : pipelineStatusKey p = k
      · subst hk
        unfold countAt
        rw [lookupKey_updateKey_self m _ _ (by unfold containsKey; rw [hl]; rfl), hl]
        simp
      · unfold countAt
        rw [lookupKey_updateKey_ne m _ _ _ (fun h => hk h.symm)]
        simp [hk]

lemma countAt_foldl_seedStep (l : List PipelineStatusRec) :
    ∀ (m : UseMap) (k : PipelineUseMapKey),
      countAt (l.foldl seedStep m) k =
        countAt m k + (l.countP (fun p => decide (pipelineStatusKey p = k)) : Int) := by
  induction l with
  | nil => intro m k; simp
  | cons p t ih =>
    intro m k
    rw [List.foldl_cons, ih, countAt_seedStep, List.countP_cons]
    by_cases hk : pipelineStatusKey p = k
    · simp [hk]
      omega
    · simp [hk]

lemma countAt_seedMap (st : ComponentStatus) (k : PipelineUseMapKey) :
    countAt (seedMap st) k =
      ((statusPipelineList st).countP (fun p => decide (pipelineStatusKey p = k)) : Int) := by
  unfold seedMap
  rw [countAt_foldl_seedStep]
  simp [countAt, lookupKey]

lemma containsKey_seedStep (m : UseMap) (p : PipelineStatusRec) (k : PipelineUseMapKey) :
    containsKey (seedStep m p) k =
      (containsKey m k || decide (pipelineStatusKey p = k)) := by
  unfold seedStep
  cases hl : lookupKey m (pipelineStatusKey p) with
  | none =>
      simp only [hl]
      unfold containsKey
      rw [lookupKey_append]
      cases hlk : lookupKey m k with
      | none =>
          by_cases hk : pipelineStatusKey p = k <;> simp [hk]
      | some v => simp
  | some v =>
      simp only [hl]
      rw [containsKey_updateKey]
      by_cases hk : pipelineStatusKey p = k
      · subst hk
        unfold containsKey
        rw [hl]
        rfl
      · simp [hk]

lemma containsKey_seedMap (st : ComponentStatus) (k : PipelineUseMapKey) :
    containsKey (seedMap st) k =
      (statusPipelineList st).any (fun p => decide (pipelineStatusKey p = k)) := by
  unfold seedMap
  have haux : ∀ (l : List PipelineStatusRec) (m : UseMap),
      containsKey (l.foldl seedStep m) k =
        (containsKey m k || l.any (fun p => decide (pipelineStatusKey p = k))) := by
    intro l
    induction l with
    | nil => intro m; simp
    | cons p t ih =>
      intro m
      rw [List.foldl_cons, ih, containsKey_seedStep, List.any_cons]
      cases containsKey m k <;> by_cases hk : pipelineStatusKey p = k <;> simp [hk]
  rw [haux]
  simp [containsKey, lookupKey]

lemma countAt_updateKey_sub (m : UseMap) (pv : PipelineVersion) (k : PipelineUseMapKey)
    (v : PipelineUseMapValue) (hl : lookupKey m pv.key = some v) :
    countAt (updateKey m pv.key { v with useCount := v.useCount - 1 }) k =
      countAt m k - (if pv.key = k then 1 else 0) := by
  by_cases hk : pv.key = k
  · subst hk
    unfold countAt
    rw [lookupKey_updateKey_self m _ _ (by unfold containsKey; rw [hl]; rfl), hl]
    simp
  · unfold countAt
    rw [lookupKey_updateKey_ne m _ _ _ (fun h => hk h.symm)]
    simp [hk]

/-- The decrement loop, when every key is present, succeeds, preserves the key
set, and subtracts exactly the per-key pair count. -/
lemma decPhase_ok (dec : List PipelineVersion) :
    ∀ (m : UseMap), (∀ pv ∈ dec, containsKey m pv.key = true) →
    ∃ m', decPhase m dec = .ok m' ∧
      (∀ k, containsKey m' k = containsKey m k) ∧
      (∀ k, countAt m' k =
        countAt m k - (dec.countP (fun pv => decide (pv.key = k)) : Int)) := by
  induction dec with
  | nil =>
    intro m _
    exact ⟨m, rfl, fun k => rfl, fun k => by simp⟩
  | cons pv t ih =>
    intro m h
    have hc := h pv (List.mem_cons_self pv t)
    cases hl : lookupKey m pv.key with
    | none => unfold containsKey at hc; rw [hl] at hc; simp [Option.isSome] at hc
    | some v =>
      have hstep : decStep (.ok m) pv =
          .ok (updateKey m pv.key { v with useCount := v.useCount - 1 }) := by
        unfold decStep
        rw [exceptBind_ok, hl]
      have hrest : decPhase m (pv :: t) =
          decPhase (updateKey m pv.key { v with useCount := v.useCount - 1 }) t := by
        unfold decPhase
        rw [List.foldl_cons, hstep]
      rcases ih (updateKey m pv.key { v with useCount := v.useCount - 1 })
        (fun q hq => by
          rw [containsKey_updateKey]
          exact h q (List.mem_cons_of_mem pv hq)) with ⟨m', hm', hcon, hcount⟩
      refine ⟨m', by rw [hrest]; exact hm', ?_, ?_⟩
      · intro k
        rw [hcon k, containsKey_updateKey]
      · intro k
        rw [hcount k, countAt_updateKey_sub m pv k v hl, List.countP_cons]
        by_cases hk : pv.key = k
        · simp [hk]; omega
        · simp [hk]

lemma countAt_incStep (m : UseMap) (pv : PipelineVersion) (k : PipelineUseMapKey) :
    countAt (incStep m pv) k = countAt m k + (if pv.key = k then 1 else 0) := by
  unfold incStep
  cases hl : lookupKey m pv.key with
  | none =>
      by_cases hk : pv.key = k
      · subst hk
        unfold countAt
        rw [lookupKey_append, hl]
        simp [freshValue]
      · unfold countAt
        rw [lookupKey_append]
        cases hlk : lookupKey m k with
        | none => simp [hk]
        | some v => simp [hk]
  | some v =>
      by_cases hk : pv.key = k
      · subst hk
        unfold countAt
        rw [lookupKey_updateKey_self m _ _ (by unfold containsKey; rw [hl]; rfl), hl]
        simp
      · unfold countAt
        rw [lookupKey_updateKey_ne m _ _ _ (fun h => hk h.symm)]
        simp [hk]

lemma countAt_incPhase (inc : List PipelineVersion) :
    ∀ (m : UseMap) (k : PipelineUseMapKey),
      countAt (incPhase m inc) k =
        countAt m k + (inc.countP (fun pv => decide (pv.key = k)) : Int) := by
  induction inc with
  | nil => intro m k; simp [incPhase]
  | cons pv t ih =>
    intro m k
    unfold incPhase at ih ⊢
    rw [List.foldl_cons, ih, countAt_incStep, List.countP_cons]
    by_cases hk : pv.key = k
    · simp [hk]; omega
    · simp [hk]

/-! ## Pair-set lemmas -/

lemma mem_pvInsert (s : List PipelineVersion) (pv x : PipelineVersion) :
    x ∈ pvInsert s pv ↔ x ∈ s ∨ x = pv := by
  unfold pvInsert
  split
  · rename_i hmem
    constructor
    · exact fun h => Or.inl h
    · rintro (h | rfl)
      · exact h
      · exact hmem
  · simp

lemma mem_foldl_pvInsert (l : List PipelineVersion) :
    ∀ (s : List PipelineVersion) (x : PipelineVersion),
      x ∈ l.foldl pvInsert s ↔ x ∈ s ∨ x ∈ l := by
  induction l with
  | nil => intro s x; simp
  | cons a t ih =>
    intro s x
    rw [List.foldl_cons, ih, mem_pvInsert, List.mem_cons]
    tauto

lemma nodup_pvInsert (s : List PipelineVersion) (pv : PipelineVersion)
    (h : s.Nodup) : (pvInsert s pv).Nodup := by
  unfold pvInsert
  split
  · exact h
  · rename_i hmem
    exact List.Nodup.append h (List.nodup_singleton pv)
      (by intro a ha hb; simp at hb; subst hb; exact hmem ha)

lemma nodup_foldl_pvInsert (l : List PipelineVersion) :
    ∀ (s : List PipelineVersion), s.Nodup → (l.foldl pvInsert s).Nodup := by
  induction l with
  | nil => intro s h; exact h
  | cons a t ih =>
    intro s h
    rw [List.foldl_cons]
    exact ih _ (nodup_pvInsert s a h)

lemma foldl_pvInsert_of_nodup (l : List PipelineVersion) (hl : l.Nodup) :
    ∀ (s : List PipelineVersion), (∀ x ∈ l, x ∉ s) → l.foldl pvInsert s = s ++ l := by
  induction l with
  | nil => intro s _; simp
  | cons a t ih =>
    intro s hnot
    rw [List.foldl_cons]
    have hstep : pvInsert s a = s ++ [a] := by
      unfold pvInsert
      rw [if_neg (hnot a (List.mem_cons_self a t))]
    rw [hstep, ih (List.Nodup.of_cons hl) (s ++ [a]) ?_, List.append_assoc]
    · rfl
    · intro x hx hmem
      rcases List.mem_append.mp hmem with h1 | h2
      · exact hnot x (List.mem_cons_of_mem a hx) h1
      · simp at h2
        subst h2
        exact (List.nodup_cons.mp hl).1 hx

/-- The spec loop only ever removes pairs from the decrement set. -/
lemma specLoop_dec_subset (l : List PipelineVersion) :
    ∀ (dec inc : List PipelineVersion), (l.foldl specLoopStep (dec, inc)).1 ⊆ dec := by
  induction l with
  | nil => intro dec inc x hx; exact hx
  | cons p t ih =>
    intro dec inc
    rw [List.foldl_cons]
    unfold specLoopStep
    by_cases hp : p ∈ dec
    · rw [if_pos hp]
      exact fun x hx => List.erase_subset p dec (ih (dec.erase p) inc hx)
    · rw [if_neg hp]
      exact ih dec (pvInsert inc p)

/-- The spec loop under duplicate-free spec pairs: the final decrement set is
the status pairs not named by the spec, and the final increment set collects
the spec pairs not named by the status. -/
lemma specLoop_aux (l : List PipelineVersion) :
    ∀ (dec inc : List PipelineVersion), l.Nodup → dec.Nodup → (∀ p ∈ l, p ∉ inc) →
      (l.foldl specLoopStep (dec, inc)).1 =
        dec.filter (fun x => decide (x ∉ l)) ∧
      (l.foldl specLoopStep (dec, inc)).2 =
        inc ++ l.filter (fun x => decide (x ∉ dec)) := by
  induction l with
  | nil =>
    intro dec inc _ _ _
    constructor
    · simp
    · simp
  | cons p t ih =>
    intro dec inc hl hdec hinc
    have hpt : p ∉ t := (List.nodup_cons.mp hl).1
    have htn : t.Nodup := (List.nodup_cons.mp hl).2
    by_cases hp : p ∈ dec
    · have hstep : specLoopStep (dec, inc) p = (dec.erase p, inc) := by
        unfold specLoopStep
        rw [if_pos hp]
      rw [List.foldl_cons, hstep]
      have herase : dec.erase p = dec.filter (fun x => x != p) :=
        List.Nodup.erase_eq_filter hdec p
      rcases ih (dec.erase p) inc htn (List.Nodup.erase p hdec)
        (fun q hq => hinc q (List.mem_cons_of_mem p hq)) with ⟨h1, h2⟩
      constructor
      · rw [h1, herase, List.filter_filter]
        refine List.filter_congr ?_
        intro x hx
        by_cases hxp : x = p
        · subst hxp
          simp [hpt]
        · simp [hxp, List.mem_cons]
      · rw [h2]
        congr 1
        have hpf : (p :: t).filter (fun x => decide (x ∉ dec)) =
            t.filter (fun x => decide (x ∉ dec)) := by
          rw [List.filter_cons]
          simp [hp]
        rw [hpf]
        refine List.filter_congr ?_
        intro x hx
        have hxp : x ≠ p := fun h => hpt (h ▸ hx)
        simp [List.mem_erase_of_ne hxp]
    · have hstep : specLoopStep (dec, inc) p = (dec, inc ++ [p]) := by
        unfold specLoopStep
        rw [if_neg hp]
        unfold pvInsert
        rw [if_neg (hinc p (List.mem_cons_self p t))]
      rw [List.foldl_cons, hstep]
      rcases ih dec (inc ++ [p]) htn hdec
        (fun q hq => by
          intro hmem
          rcases List.mem_append.mp hmem with h1 | h2
          · exact hinc q (List.mem_cons_of_mem p hq) h1
          · simp at h2
            subst h2
            exact hpt hq) with ⟨h1, h2⟩
      constructor
      · rw [h1]
        refine List.filter_congr ?_
        intro x hx
        have hxp : x ≠ p := fun h => hp (h ▸ hx)
        simp [List.mem_cons, hxp]
      · rw [h2, List.append_assoc]
        congr 1
        rw [List.filter_cons]
        simp [hp]

/-- Every status pair's key is the key of some status pipeline entry. -/
lemma statusPair_key_from_pipeline (st : ComponentStatus) (pv : PipelineVersion)
    (h : pv ∈ statusPairList st) :
    ∃ p ∈ statusPipelineList st, pv.key = pipelineStatusKey p := by
  unfold statusPairList at h
  rcases List.mem_flatMap.mp h with ⟨v, hv, hpv⟩
  rcases List.mem_map.mp hpv with ⟨p, hp, rfl⟩
  exact ⟨p, List.mem_flatMap.mpr ⟨v, hv, hp⟩, rfl⟩

/-- Every key the decrement loop will look up is present in the seeded map. -/
lemma decSet_keys_seeded (st : ComponentStatus) (sp : ComponentSpec)
    (pv : PipelineVersion) (h : pv ∈ (specLoop sp (decSet0 st)).1) :
    containsKey (seedMap st) pv.key = true := by
  have h0 : pv ∈ decSet0 st := specLoop_dec_subset (specPairList sp) (decSet0 st) [] h
  have h1 : pv ∈ statusPairList st := by
    have := (mem_foldl_pvInsert (statusPairList st) [] pv).mp h0
    simpa using this
  rcases statusPair_key_from_pipeline st pv h1 with ⟨p, hp, hkey⟩
  rw [containsKey_seedMap]
  exact List.any_eq_true.mpr ⟨p, hp, decide_eq_true hkey.symm⟩

/-- Claim C10: the structural-error branch of the decrement loop is
unreachable - for every input status and spec, every pair to decrement was
seeded from the same status entries, so the use-count bookkeeping of
`ActivatePipelines` always returns a map and never the error "Pipeline
version not found in use map". -/
theorem countPhase_never_fails (st : ComponentStatus) (sp : ComponentSpec) :
    ∃ m, countPhase st sp = .ok m := by
  rcases decPhase_ok (specLoop sp (decSet0 st)).1 (seedMap st)
    (fun pv hpv => decSet_keys_seeded st sp pv hpv) with ⟨m1, hdec, _, _⟩
  refine ⟨incPhase m1 (specLoop sp (decSet0 st)).2, ?_⟩
  unfold countPhase
  simp only [hdec, exceptMap_ok]

/-! ## The C1 use-count formula -/

/-- The seeded use count of a key: how many status entries reference it. -/
def seedCount (st : ComponentStatus) (k : PipelineUseMapKey) : Nat :=
  (statusPipelineList st).countP (fun p => decide (pipelineStatusKey p = k))

/-- The number of distinct (key, version) pairs carrying the key that are
present in the status but not in the desired spec. -/
def statusOnlyCount (st : ComponentStatus) (sp : ComponentSpec)
    (k : PipelineUseMapKey) : Nat :=
  (decSet0 st).countP (fun pv => decide (pv.key = k ∧ pv ∉ specPairList sp))

/-- The number of (key, version) pairs carrying the key that are present in
the desired spec but not in the status. -/
def specOnlyCount (st : ComponentStatus) (sp : ComponentSpec)
    (k : PipelineUseMapKey) : Nat :=
  (specPairList sp).countP (fun pv => decide (pv.key = k ∧ pv ∉ statusPairList st))

lemma countP_and_split {α : Type} (l : List α) (p q : α → Bool) :
    l.countP p = l.countP (fun a => p a && q a) + l.countP (fun a => p a && !q a) := by
  induction l with
  | nil => simp
  | cons a t ih =>
    rw [List.countP_cons, List.countP_cons, List.countP_cons]
    cases hp : p a <;> cases hq : q a <;> simp [hp, hq] <;> omega

/-- Counting pairs by key equals counting pipelines by key: each status
pipeline contributes exactly one pair carrying its key. -/
lemma statusPairs_key_count (k : PipelineUseMapKey) :
    ∀ (vs : List VersionStatus),
      ((vs.flatMap (fun v => v.pipelines.map
          (fun p => (⟨pipelineStatusKey p, v.version⟩ : PipelineVersion)))).countP
        (fun pv => decide (pv.key = k)))
      = ((vs.flatMap (fun v => v.pipelines)).countP
          (fun p => decide (pipelineStatusKey p = k))) := by
  intro vs
  induction vs with
  | nil => rfl
  | cons v t ih =>
    rw [List.flatMap_cons, List.flatMap_cons, List.countP_append, List.countP_append, ih,
      List.countP_map]
    rfl

/-- Counting common pairs can be done from either side when both lists are
duplicate-free. -/
lemma countP_mem_comm (s sp : List PipelineVersion) (hs : s.Nodup) (hsp : sp.Nodup)
    (k : PipelineUseMapKey) :
    s.countP (fun pv => decide (pv.key = k ∧ pv ∈ sp)) =
      sp.countP (fun pv => decide (pv.key = k ∧ pv ∈ s)) := by
  rw [List.countP_eq_length_filter, List.countP_eq_length_filter]
  refine List.Perm.length_eq ?_
  refine (List.perm_ext_iff_of_nodup (hs.filter _) (hsp.filter _)).mpr ?_
  intro a
  simp only [List.mem_filter, decide_eq_true_eq]
  tauto

lemma mem_foldl_deleteScheduleStep (tns : String) :
    ∀ (m : UseMap) (acc : List RepositoryAssetStatus) (x : RepositoryAssetStatus),
      x ∈ acc → x ∈ m.foldl (deleteScheduleStep tns) acc := by
  intro m
  induction m with
  | nil => intro acc x hx; exact hx
  | cons e t ih =>
    intro acc x hx
    rw [List.foldl_cons]
    refine ih _ x ?_
    unfold deleteScheduleStep
    split
    · exact List.mem_append.mpr (Or.inl hx)
    · exact hx

/-- Every previously active asset of a non-positive-count entry lands on the
deletion schedule, with its namespace defaulted. -/
lemma mem_deleteSchedule_of (tns : String) :
    ∀ (m : UseMap) (acc : List RepositoryAssetStatus) (k : PipelineUseMapKey)
      (v : PipelineUseMapValue) (a : RepositoryAssetStatus),
      (k, v) ∈ m → v.useCount ≤ 0 → a ∈ v.pipelineStatus.activeAssets →
      nsDefault tns a ∈ m.foldl (deleteScheduleStep tns) acc := by
  intro m
  induction m with
  | nil => intro acc k v a hm; cases hm
  | cons e t ih =>
    intro acc k v a hm hle ha
    rw [List.foldl_cons]
    rcases List.mem_cons.mp hm with rfl | hmem
    · refine mem_foldl_deleteScheduleStep tns t _ _ ?_
      unfold deleteScheduleStep
      rw [if_pos hle]
      exact List.mem_append.mpr (Or.inr (List.mem_map_of_mem (nsDefault tns) ha))
    · exact ih _ k v a hmem hle ha

/-- Every positive-count entry's key is scheduled for ensure-present
processing. -/
lemma mem_ensureKeys_of (m : UseMap) (k : PipelineUseMapKey) (v : PipelineUseMapValue)
    (hm : (k, v) ∈ m) (hpos : 0 < v.useCount) : k ∈ ensureKeys m := by
  unfold ensureKeys
  exact List.mem_map.mpr ⟨(k, v), List.mem_filter.mpr ⟨hm, decide_eq_true hpos⟩, rfl⟩

/-- The inclusion-exclusion step of the use-count formula over duplicate-free
pair lists. -/
lemma nodup_count_formula (s sp : List PipelineVersion) (hs : s.Nodup) (hsp : sp.Nodup)
    (k : PipelineUseMapKey) :
    (s.countP (fun pv => decide (pv.key = k)) : Int)
      - s.countP (fun pv => decide (pv.key = k ∧ pv ∉ sp))
      + sp.countP (fun pv => decide (pv.key = k ∧ pv ∉ s))
    = (sp.countP (fun pv => decide (pv.key = k)) : Int) := by
  have h1 := countP_and_split s (fun pv => decide (pv.key = k)) (fun pv => decide (pv ∈ sp))
  have h2 := countP_and_split sp (fun pv => decide (pv.key = k)) (fun pv => decide (pv ∈ s))
  have hcross := countP_mem_comm s sp hs hsp k
  have e1 : s.countP (fun pv => decide (pv.key = k) && decide (pv ∈ sp)) =
      s.countP (fun pv => decide (pv.key = k ∧ pv ∈ sp)) :=
    List.countP_congr (fun a _ => by simp)
  have e2 : s.countP (fun pv => decide (pv.key = k) && !decide (pv ∈ sp)) =
      s.countP (fun pv => decide (pv.key = k ∧ pv ∉ sp)) :=
    List.countP_congr (fun a _ => by simp)
  have e3 : sp.countP (fun pv => decide (pv.key = k) && decide (pv ∈ s)) =
      sp.countP (fun pv => decide (pv.key = k ∧ pv ∈ s)) :=
    List.countP_congr (fun a _ => by simp)
  have e4 : sp.countP (fun pv => decide (pv.key = k) && !decide (pv ∈ s)) =
      sp.countP (fun pv => decide (pv.key = k ∧ pv ∉ s)) :=
    List.countP_congr (fun a _ => by simp)
  rw [e1, e2] at h1
  rw [e3, e4] at h2
  omega

/-- Claim C1, amended with the proviso the counterexample forces: provided the
desired spec's (key, version) pairs are duplicate-free, the use-count
bookkeeping succeeds and each key's final use count is the seeded count of
status entries referencing it, minus one per pair present only in status,
plus one per pair present only in the spec (pairs in both cancel; a key only
in the spec starts from 0); non-positive entries have all their previously
active assets scheduled for deletion and positive entries are scheduled for
ensure-present processing; and when the status pairs are also duplicate-free,
each final use count equals the number of spec version entries referencing
the key. -/
theorem activatePipelines_useCount (st : ComponentStatus) (sp : ComponentSpec)
    (tns : String) (hnodup : (specPairList sp).Nodup) :
    ∃ m, countPhase st sp = .ok m ∧
      (∀ k, countAt m k =
        (seedCount st k : Int) - statusOnlyCount st sp k + specOnlyCount st sp k) ∧
      (∀ k v, (k, v) ∈ m →
        (v.useCount ≤ 0 → ∀ a ∈ v.pipelineStatus.activeAssets,
            nsDefault tns a ∈ deleteSchedule tns m) ∧
        (0 < v.useCount → k ∈ ensureKeys m)) ∧
      ((statusPairList st).Nodup → ∀ k,
        countAt m k = ((specPairList sp).countP (fun pv => decide (pv.key = k)) : Int)) := by
  have hdecnodup : (decSet0 st).Nodup :=
    nodup_foldl_pvInsert (statusPairList st) [] List.nodup_nil
  have hsl := specLoop_aux (specPairList sp) (decSet0 st) [] hnodup hdecnodup
    (fun p _ => List.not_mem_nil p)
  rcases decPhase_ok (specLoop sp (decSet0 st)).1 (seedMap st)
    (fun pv hpv => decSet_keys_seeded st sp pv hpv) with ⟨m1, hdec, hcon1, hcount1⟩
  have hok : countPhase st sp = .ok (incPhase m1 (specLoop sp (decSet0 st)).2) := by
    unfold countPhase
    simp only [hdec, exceptMap_ok]
  have hd1 : (specLoop sp (decSet0 st)).1 =
      (decSet0 st).filter (fun x => decide (x ∉ specPairList sp)) := hsl.1
  have hd2 : (specLoop sp (decSet0 st)).2 =
      (specPairList sp).filter (fun x => decide (x ∉ decSet0 st)) := by
    have h := hsl.2
    simpa using h
  have hformula : ∀ k, countAt (incPhase m1 (specLoop sp (decSet0 st)).2) k =
      (seedCount st k : Int) - statusOnlyCount st sp k + specOnlyCount st sp k := by
    intro k
    rw [countAt_incPhase, hcount1 k, countAt_seedMap]
    have hdc : ((specLoop sp (decSet0 st)).1.countP (fun pv => decide (pv.key = k)))
        = statusOnlyCount st sp k := by
      rw [hd1, List.countP_filter]
      exact List.countP_congr (fun a _ => by simp)
    have hic : ((specLoop sp (decSet0 st)).2.countP (fun pv => decide (pv.key = k)))
        = specOnlyCount st sp k := by
      rw [hd2, List.countP_filter]
      refine List.countP_congr ?_
      intro pv _
      have hmemiff : (pv ∈ decSet0 st) ↔ (pv ∈ statusPairList st) := by
        unfold decSet0
        rw [mem_foldl_pvInsert]
        simp
      simp [hmemiff]
    rw [hdc, hic]
    rfl
  refine ⟨_, hok, hformula, ?_, ?_⟩
  · intro k v hm
    constructor
    · intro hle a ha
      exact mem_deleteSchedule_of tns _ [] k v a hm hle ha
    · intro hpos
      exact mem_ensureKeys_of _ k v hm hpos
  · intro hst k
    rw [hformula k]
    have hds : decSet0 st = statusPairList st := by
      have h := foldl_pvInsert_of_nodup (statusPairList st) hst []
        (fun x _ => List.not_mem_nil x)
      simpa using h
    have hseed : (seedCount st k) =
        (statusPairList st).countP (fun pv => decide (pv.key = k)) :=
      (statusPairs_key_count k st.versions).symm
    unfold statusOnlyCount specOnlyCount
    rw [hds, hseed]
    exact nodup_count_formula (statusPairList st) (specPairList sp) hst hnodup k

/-- The zero-valued spec-side git release record. -/
def c1ZeroGitSpec : GitReleaseSpec :=
  { hostname := "", organization := "", project := "", release := "", assetName := "",
    skipCertVerification := false }

/-- The single status pipeline of the C1 counterexample. -/
def c1Ps : PipelineStatusRec :=
  { name := "", url := "u", gitRelease := GitReleaseInfo.zero, digest := "d",
    activeAssets := [] }

/-- The status of the C1 counterexample: one version referencing one
pipeline. -/
def c1Status : ComponentStatus :=
  { versions := [{ version := "v1", pipelines := [c1Ps] }] }

/-- The spec pipeline of the C1 counterexample, same key as the status one. -/
def c1Q : PipelineSpecRec :=
  { sha256 := "d", gitRelease := c1ZeroGitSpec,
    https := { url := "u", skipCertVerification := false } }

/-- The desired spec of the C1 counterexample: the same version lists the
same pipeline twice. -/
def c1Spec : ComponentSpec :=
  { versions := [{ version := "v1", pipelines := [c1Q, c1Q] }] }

/-- The shared use-map key of the C1 counterexample. -/
def c1Key : PipelineUseMapKey :=
  { url := "u", gitRelease := GitReleaseInfo.zero, digest := "d" }

/-- Counterexample to C1 as stated: with the (key, version) pair present in
both status and spec - the spec merely listing it twice - the claim's
formula predicts a final use count of 1 (seeded 1, both adjustment sets
empty after cancellation), but the code cancels only the first spec
occurrence and counts the second as an increment, producing 2. -/
theorem activatePipelines_useCount_counterexample :
    ((countPhase c1Status c1Spec).toOption.map (fun m => countAt m c1Key) = some 2) ∧
    seedCount c1Status c1Key = 1 ∧
    statusOnlyCount c1Status c1Spec c1Key = 0 ∧
    specOnlyCount c1Status c1Spec c1Key = 0 ∧
    ¬ ((2 : Int) = (1 : Int) - 0 + 0) := by
  decide

/-- The duplicate-free desired spec of the C1 witness: two versions, each
referencing the same pipeline key once. -/
def w1Spec : ComponentSpec :=
  { versions := [{ version := "v1", pipelines := [c1Q] },
                 { version := "v2", pipelines := [c1Q] }] }

/-- Closed witness for the amended C1, at a two-version duplicate-free spec. -/
theorem activatePipelines_useCount_witness :
    (specPairList w1Spec).Nodup ∧
    (∃ m, countPhase c1Status w1Spec = .ok m ∧
      (∀ k, countAt m k =
        (seedCount c1Status k : Int) - statusOnlyCount c1Status w1Spec k +
          specOnlyCount c1Status w1Spec k) ∧
      (∀ k v, (k, v) ∈ m →
        (v.useCount ≤ 0 → ∀ a ∈ v.pipelineStatus.activeAssets,
            nsDefault "ns" a ∈ deleteSchedule "ns" m) ∧
        (0 < v.useCount → k ∈ ensureKeys m)) ∧
      ((statusPairList c1Status).Nodup → ∀ k,
        countAt m k = ((specPairList w1Spec).countP (fun pv => decide (pv.key = k)) : Int))) :=
  ⟨by decide, activatePipelines_useCount c1Status w1Spec "ns" (by decide)⟩

end Kabanero
